import Mathlib

/-!
Verification of the core attendance-editor logic of `attendance.js`
(Yaqeen): id/grade parsing, column-role detection, column catalog
building, student indexing, preview computation and edit application.

The JavaScript source is shallowly embedded: cells hold
`null | string | number | boolean` (numbers restricted to the integral
values the id pipeline manipulates), worksheets are association lists
from 1-based addresses to cells together with the `!ref` bounding range,
and every source function is transcribed as an executable Lean function.
JS `Map`s and plain objects are modelled as insertion-ordered
association lists, matching JS iteration-order semantics.
-/

set_option maxHeartbeats 1000000

namespace Yaqeen

/-! ### JS string primitives (modelled at the character-list level) -/

/-- The whitespace characters trimmed by JS `String.prototype.trim`
(restricted to the ASCII ones that can occur in our inputs). -/
def jsWhitespace (ch : Char) : Bool :=
  ch = ' ' || ch = '\t' || ch = '\n' || ch = '\r' || ch = '\x0b' || ch = '\x0c'

/-- JS `s.trim()`. -/
def jsTrim (s : String) : String :=
  ⟨((s.data.dropWhile jsWhitespace).reverse.dropWhile jsWhitespace).reverse⟩

/-- JS `s.toLowerCase()` (ASCII). -/
def jsLower (s : String) : String := ⟨s.data.map Char.toLower⟩

/-- JS `a.includes(b)` for a nonempty pattern `b`. -/
def jsIncludes (s pat : String) : Bool := decide (pat.data <:+: s.data)

/-- JS `s.includes("@")`. -/
def hasAt (s : String) : Bool := s.data.contains '@'

/-- JS `s.split("@")[0]`. -/
def beforeAt (s : String) : String := ⟨s.data.takeWhile (· ≠ '@')⟩

/-- `/^\d+$/.test s` — nonempty and all ASCII digits. -/
def allDigits (s : String) : Bool := !s.data.isEmpty && s.data.all Char.isDigit

/-- JS `s.replace(/\.0$/, "")` — strip one trailing `".0"`. -/
def stripDotZero (s : String) : String :=
  if s.data.reverse.take 2 = ['0', '.'] then ⟨s.data.dropLast.dropLast⟩ else s

/-- Split a character list at every occurrence of a separator character
(JS `s.split(sep)` for a single-character separator). -/
def splitCharsOn (sep : Char) : List Char → List String
  | [] => [""]
  | c :: rest =>
      let tail := splitCharsOn sep rest
      if c = sep then "" :: tail
      else
        match tail with
        | [] => [⟨[c]⟩]
        | t :: ts => ⟨c :: t.data⟩ :: ts

/-- JS `s.split(sep)` for a one-character separator. -/
def jsSplitChar (s : String) (sep : Char) : List String := splitCharsOn sep s.data

/-- JS `s.replace(/\r\n/g, "\n")`. -/
def stripCR : List Char → List Char
  | [] => []
  | '\r' :: '\n' :: rest => '\n' :: stripCR rest
  | c :: rest => c :: stripCR rest

/-- The line list produced by `text.replace(/\r\n/g, "\n").split("\n")`. -/
def jsLines (s : String) : List String := splitCharsOn '\n' (stripCR s.data)

/-- Split on a multi-character separator (JS `s.split(sep)` for a
nonempty separator `p :: ps`); fuel-indexed so the recursion is
structural (fuel `l.length + 1` always suffices since each step
consumes at least one character). -/
def splitOnListAux (p : Char) (ps : List Char) : Nat → List Char → List Char → List String
  | _, [], acc => [⟨acc.reverse⟩]
  | 0, l, acc => [⟨acc.reverse ++ l⟩]
  | fuel + 1, c :: rest, acc =>
      if (p :: ps).isPrefixOf (c :: rest) then
        ⟨acc.reverse⟩ :: splitOnListAux p ps fuel ((c :: rest).drop (ps.length + 1)) []
      else
        splitOnListAux p ps fuel rest (c :: acc)

/-- JS `s.split(sep)` for a string separator (an empty separator, which
this code never passes, behaves as a one-chunk split). -/
def jsSplitStr (s pat : String) : List String :=
  match pat.data with
  | [] => [s]
  | p :: ps => splitOnListAux p ps (s.data.length + 1) s.data []

/-- JS `String(x)` on an integral number. -/
def jsNumToString (n : Int) : String := toString n

/-- `/[a-zA-Z]/.test s`. -/
def hasLetter (s : String) : Bool :=
  s.data.any (fun c => ('a' ≤ c && c ≤ 'z') || ('A' ≤ c && c ≤ 'Z'))

/-- `/^\d{6,}@/.test s` — at least six digits followed by `@`. -/
def digitsThenAt (s : String) : Bool :=
  let pre := s.data.takeWhile Char.isDigit
  decide (pre.length ≥ 6) && decide ((s.data.drop pre.length).head? = some '@')

/-! ### Cell values and the workbook model -/

/-- A populated cell value: JS `string | number | boolean` (numbers
restricted to the integral values this pipeline reads and writes). -/
inductive CellVal where
  | str (s : String)
  | num (n : Int)
  | bool (b : Bool)
  deriving DecidableEq, Repr

/-- JS `String(v)`. -/
def CellVal.toJsString : CellVal → String
  | .str s => s
  | .num n => jsNumToString n
  | .bool b => if b then "true" else "false"

/-- A stored cell: SheetJS `{ t, v, s }` — type tag, value and an
optional solid-fill color (the only style this code writes). -/
structure Cell where
  t : String
  v : Option CellVal
  s : Option String := none
  deriving DecidableEq, Repr

/-- A 1-based cell address (the shallow model of the A1-notation string
produced by `XLSX.utils.encode_cell`; the encoding is injective, so the
pair itself is used as the key). -/
structure Addr where
  row1 : Nat
  col1 : Nat
  deriving DecidableEq, Repr

/-- The `!ref` range of a sheet, 0-based as in SheetJS `decode_range`. -/
structure SRange where
  sr : Nat
  sc : Nat
  er : Nat
  ec : Nat
  deriving DecidableEq, Repr

/-- A worksheet: its `!ref` range (absent for an empty sheet) and its
populated cells as an insertion-ordered association list. -/
structure Sheet where
  range : Option SRange
  cells : List (Addr × Cell)
  deriving DecidableEq, Repr

/-- A workbook: `SheetNames` plus the name-indexed sheet map. -/
structure Workbook where
  sheetNames : List String
  sheets : List (String × Sheet)
  deriving DecidableEq, Repr

/-- Association-list lookup (JS `map.get` / property read). -/
def alGet {κ : Type} [DecidableEq κ] {ν : Type} (m : List (κ × ν)) (k : κ) : Option ν :=
  (m.find? (fun p => p.1 = k)).map (·.2)

/-- Insertion-ordered set-or-update (JS `map.set` / property write):
an existing key is updated in place, a new key is appended. -/
def alSet {κ : Type} [DecidableEq κ] {ν : Type}
    (m : List (κ × ν)) (k : κ) (v : ν) : List (κ × ν) :=
  match m with
  | [] => [(k, v)]
  | (k', v') :: rest =>
      if k' = k then (k, v) :: rest else (k', v') :: alSet rest k v

/-- Update an existing entry in place with a function (JS mutating a
value already held in a `Map`); no-op when the key is absent. -/
def alUpdate {κ : Type} [DecidableEq κ] {ν : Type}
    (m : List (κ × ν)) (k : κ) (f : ν → ν) : List (κ × ν) :=
  match m with
  | [] => []
  | (k', v') :: rest =>
      if k' = k then (k', f v') :: rest else (k', v') :: alUpdate rest k f

/-- `workbook.Sheets[name]`. -/
def Workbook.ws (wb : Workbook) (name : String) : Option Sheet :=
  alGet wb.sheets name

/-- `cellValue(ws, r1, c1)` — the populated value at a 1-based address,
`none` for a missing cell or a null value. -/
def cellValue (ws : Sheet) (r1 c1 : Nat) : Option CellVal :=
  match (ws.cells.find? (fun p => p.1 = Addr.mk r1 c1)).map (·.2) with
  | none => none
  | some cell => cell.v

/-- `getSheetRange(ws)`. -/
def getSheetRange (ws : Sheet) : Option SRange := ws.range

/-! ### `normalizeId` -/

/-- `normalizeId` on a possibly-null cell value: numbers are truncated
and stringified, other values stringified, trimmed, and stripped of one
trailing `".0"`.  JS returns `null` only for `null`/`undefined` input;
the empty string is a possible (falsy) result. -/
def normalizeId : Option CellVal → Option String
  | none => none
  | some (.num n) => some (jsNumToString n)
  | some v => some (stripDotZero (jsTrim v.toJsString))

/-- JS truthiness of a `string | null` value. -/
def truthy : Option String → Bool
  | none => false
  | some s => !s.data.isEmpty

/-- `isIdShaped s` — `/^\d+$/.test(s) && s.length > 5`, the id-shape
test applied throughout the source. -/
def isIdShaped (s : String) : Bool := allDigits s && s.data.length > 5

/-- The combined check `idCheck && /^\d+$/.test(idCheck) && idCheck.length > 5`
on a normalized optional value. -/
def isIdShapedOpt : Option String → Bool
  | none => false
  | some s => isIdShaped s

/-! ### `parseStudentIdsText` (identifier mode) -/

/-- An ordered entry of the parsed identifier list. -/
inductive IdEntry where
  | id (id : String) (sec : Option Nat)
  | title (title : String)
  deriving DecidableEq, Repr

/-- The mutable state threaded through `parseStudentIdsText`'s line loop. -/
structure ParseIdsState where
  orderedEntries : List IdEntry
  orderedIdsOnly : List String
  idCounts : List (String × Nat)
  sectionIdCounts : List (Nat × List (String × Nat))
  currentSectionId : Option Nat
  hasSeenFirstTitle : Bool
  deriving DecidableEq, Repr

def parseIdsInit : ParseIdsState :=
  { orderedEntries := [], orderedIdsOnly := [], idCounts := [],
    sectionIdCounts := [], currentSectionId := none, hasSeenFirstTitle := false }

/-- One iteration of the `for (const rawLine of lines)` loop of
`parseStudentIdsText`. -/
def parseIdsStep (st : ParseIdsState) (rawLine : String) : ParseIdsState :=
  let cleaned := jsTrim rawLine
  if cleaned.data.isEmpty then
    if st.hasSeenFirstTitle then { st with currentSectionId := none } else st
  else if isIdShaped cleaned then
    -- `normalizeId(cleaned)` on a string value
    let sid := stripDotZero (jsTrim cleaned)
    let st' :=
      match st.currentSectionId with
      | some sec =>
          let inner := (alGet st.sectionIdCounts sec).getD []
          let inner' := alSet inner sid ((alGet inner sid).getD 0 + 1)
          { st with sectionIdCounts := alSet st.sectionIdCounts sec inner' }
      | none => st
    { st' with
      orderedEntries := st'.orderedEntries ++ [.id sid st.currentSectionId],
      orderedIdsOnly := st'.orderedIdsOnly ++ [sid],
      idCounts := alSet st'.idCounts sid ((alGet st'.idCounts sid).getD 0 + 1) }
  else
    let newSection := st.sectionIdCounts.length + 1
    { st with
      orderedEntries := st.orderedEntries ++ [.title cleaned],
      hasSeenFirstTitle := true,
      currentSectionId := some newSection,
      sectionIdCounts :=
        if (alGet st.sectionIdCounts newSection).isNone then
          alSet st.sectionIdCounts newSection []
        else st.sectionIdCounts }

/-- JS `new Set(list)`: insertion-ordered deduplication. -/
def jsSetOfList (l : List String) : List String :=
  l.foldl (fun acc x => if acc.contains x then acc else acc ++ [x]) []

/-- The result record of `parseStudentIdsText`. -/
structure ParsedStudentIds where
  orderedEntries : List IdEntry
  targetIdsSet : List String
  totalLoadedUnique : Nat
  idCounts : List (String × Nat)
  sectionIdCounts : List (Nat × List (String × Nat))
  deriving DecidableEq, Repr

/-- `parseStudentIdsText` — the EmptyInput failure is the
`"No valid student IDs found..."` `FileError`. -/
def parseStudentIdsText (text : String) : Except String ParsedStudentIds :=
  let st := (jsLines text).foldl parseIdsStep parseIdsInit
  let idsSet := jsSetOfList st.orderedIdsOnly
  if idsSet.isEmpty then
    .error "No valid student IDs found. IDs must be numeric and at least 6 digits."
  else
    .ok { orderedEntries := st.orderedEntries, targetIdsSet := idsSet,
          totalLoadedUnique := idsSet.length, idCounts := st.idCounts,
          sectionIdCounts := st.sectionIdCounts }

/-! #### Specification-side identifier parser (transcribing C6's wording) -/

/-- The accumulator of the claimed parsing rule: the number of sections
opened so far and the currently open section (if any). -/
structure SpecIdState where
  titlesSeen : Nat
  cur : Option Nat
  deriving DecidableEq, Repr

/-- C6's per-line rule: an id-shaped trimmed line becomes an `IdEntry`
carrying the current section index; any other non-blank line becomes a
`Title` opening section `1 + titles seen so far`; a blank line clears
the current section context without opening a title. -/
def specIdStep (acc : SpecIdState × List IdEntry) (line : String) :
    SpecIdState × List IdEntry :=
  let cleaned := jsTrim line
  if cleaned.data.isEmpty then
    ({ acc.1 with cur := none }, acc.2)
  else if isIdShaped cleaned then
    (acc.1, acc.2 ++ [.id cleaned acc.1.cur])
  else
    ({ titlesSeen := acc.1.titlesSeen + 1, cur := some (acc.1.titlesSeen + 1) },
     acc.2 ++ [.title cleaned])

/-- The entry sequence C6 predicts for an input text. -/
def specIdEntries (text : String) : List IdEntry :=
  ((jsLines text).foldl specIdStep (⟨0, none⟩, [])).2

/-- The identifiers carried by the id entries, in order. -/
def idsOf (es : List IdEntry) : List String :=
  es.filterMap (fun e => match e with | .id i _ => some i | .title _ => none)

/-! ### `parseGradesText` (grade mode) -/

/-- An ordered entry of the parsed grade list. -/
inductive GradeEntry where
  | id (id grade : String)
  | title (title : String)
  deriving DecidableEq, Repr

/-- `join(",")`. -/
def joinComma : List String → String
  | [] => ""
  | [s] => s
  | s :: rest => s ++ "," ++ joinComma rest

/-- The result record of `parseGradesText`. -/
structure ParsedGrades where
  rows : List (String × String)
  orderedEntries : List GradeEntry
  deriving DecidableEq, Repr

/-- One iteration of `parseGradesText`'s line loop (the `MissingGrade`
`FileError` aborts the whole parse). -/
def parseGradesStep (acc : List (String × String) × List GradeEntry)
    (rawLine : String) : Except String (List (String × String) × List GradeEntry) :=
  let line := jsTrim rawLine
  if line.data.isEmpty then .ok acc
  else
    let parts := (jsSplitChar line ',').map jsTrim
    if parts.length < 2 then .ok (acc.1, acc.2 ++ [.title line])
    else
      -- `normalizeId(parts[0])` on a string value
      let sid := stripDotZero (jsTrim (parts.headD ""))
      if sid.data.isEmpty || !allDigits sid || decide (sid.data.length ≤ 5) then
        .ok (acc.1, acc.2 ++ [.title line])
      else
        let grade := jsTrim (joinComma (parts.drop 1))
        if grade.data.isEmpty then
          .error ("Missing grade for ID '" ++ sid ++ "'")
        else
          .ok (acc.1 ++ [(sid, grade)], acc.2 ++ [.id sid grade])

/-- `parseGradesText`. -/
def parseGradesText (text : String) : Except String ParsedGrades :=
  match (jsLines text).foldlM parseGradesStep ([], []) with
  | .error e => .error e
  | .ok (rows, entries) =>
      if rows.isEmpty then .error "No valid grade rows found."
      else .ok { rows := rows, orderedEntries := entries }

/-- The characters before the first comma. -/
def beforeComma (s : String) : String := ⟨s.data.takeWhile (· ≠ ',')⟩

/-- The characters after the first comma. -/
def afterComma (s : String) : String := ⟨(s.data.dropWhile (· ≠ ',')).drop 1⟩

/-! ### `detectIdAndNameColumns` (column-role detector) -/

/-- Result of `detectIdAndNameColumns` (1-based columns). -/
structure DetectedCols where
  idCol : Option Nat
  nameCol : Nat
  nameCol2 : Option Nat
  deriving DecidableEq, Repr

/-- The detector's inner `extractId(value, targetSet)` helper: a direct
normalized match against the target set, or the text before `@` for an
email-format cell. -/
def extractId (value : Option CellVal) (targetSet : Option (List String)) :
    Option String :=
  match targetSet with
  | none => none
  | some ts =>
      if ts.isEmpty then none
      else
        match normalizeId value with
        | none => none
        | some normalized =>
            if normalized.data.isEmpty then none
            else if hasAt normalized && ts.contains (beforeAt normalized) then
              some (beforeAt normalized)
            else if ts.contains normalized then some normalized
            else none

/-- The detector's inner `looksLikeName` helper. -/
def looksLikeName : Option CellVal → Bool
  | none => false
  | some v =>
      let str := jsTrim v.toJsString
      if str.data.isEmpty then false
      else if !hasLetter str then false
      else if allDigits str && decide (str.data.length > 5) then false
      else if digitsThenAt str then false
      else true

/-- The detector's inner `looksLikeId` helper. -/
def looksLikeId (value : Option CellVal) : Bool :=
  match normalizeId value with
  | none => false
  | some normalized =>
      if normalized.data.isEmpty then false
      else if hasAt normalized && allDigits (beforeAt normalized) &&
          decide ((beforeAt normalized).data.length > 5) then true
      else allDigits normalized && decide (normalized.data.length > 5)

/-- The `if (score > bestScore)` accumulator of the id-column selection
loops. -/
def bestStep (acc : Option Nat × Nat) (p : Nat × Nat) : Option Nat × Nat :=
  if p.2 > acc.2 then (some p.1, p.2) else acc

/-- Selection of the best-scoring column (strict `>`, so the first
entry of the score map wins ties; JS `Map` iteration is insertion
order, i.e. list order here). -/
def pickBest (scores : List (Nat × Nat)) : Option Nat :=
  (scores.foldl bestStep (none, 0)).1

/-- The 1-based data rows scanned by the detector:
`startRow1 .. maxRow1` inclusive. -/
def scanRows (startRow1 maxRow1 : Nat) : List Nat :=
  List.range' startRow1 (maxRow1 + 1 - startRow1)

/-- Name-column scores: a column of the first `min 10 maxCol1` columns
qualifies when more than half of the scanned rows look like names
(built in ascending column order, the JS `Map`'s insertion order). -/
def nameScoresOf (ws : Sheet) (rows : List Nat) (maxCol1 : Nat) : List (Nat × Nat) :=
  (List.range' 1 (min 10 maxCol1)).filterMap (fun c =>
    let textCount := (rows.filter (fun r => looksLikeName (cellValue ws r c))).length
    if rows.length > 0 && 2 * textCount > rows.length then some (c, textCount)
    else none)

/-- Pick the first adjacent pair of qualifying name columns, else the
first qualifying column, else default to column 1 (the keys arrive
already in ascending order, so the source's numeric sort is the
identity). -/
def namePairOf (nameCols : List Nat) : Nat × Option Nat :=
  match (nameCols.zip (nameCols.drop 1)).find? (fun p => p.2 = p.1 + 1) with
  | some (a, b) => (a, some b)
  | none => match nameCols with | [] => (1, none) | c :: _ => (c, none)

/-- Per-column count of scanned cells whose `extractId` hits the target
set. -/
def targetMatchCount (ws : Sheet) (rows : List Nat)
    (targetIdsSet : Option (List String)) (c : Nat) : Nat :=
  (rows.filter (fun r => (extractId (cellValue ws r c) targetIdsSet).isSome)).length

/-- The with-target id-column score map: every column except the name
column(s), keeping columns with at least one match. -/
def idScoresWithTarget (ws : Sheet) (rows : List Nat) (maxCol1 : Nat)
    (nameCol : Nat) (nameCol2 : Option Nat)
    (targetIdsSet : Option (List String)) : List (Nat × Nat) :=
  (List.range' 1 maxCol1).filterMap (fun c =>
    if c = nameCol || some c = nameCol2 then none
    else
      let m := targetMatchCount ws rows targetIdsSet c
      if m > 0 then some (c, m) else none)

/-- The no-target id-column score map: columns where more than half of
the scanned rows are id-shaped. -/
def idScoresNoTarget (ws : Sheet) (rows : List Nat) (maxCol1 : Nat)
    (nameCol : Nat) (nameCol2 : Option Nat) : List (Nat × Nat) :=
  (List.range' 1 maxCol1).filterMap (fun c =>
    if c = nameCol || some c = nameCol2 then none
    else
      let idLikeCount := (rows.filter (fun r => looksLikeId (cellValue ws r c))).length
      if rows.length > 0 && 2 * idLikeCount > rows.length then some (c, idLikeCount)
      else none)

/-- `detectIdAndNameColumns(ws, targetIdsSet, startRow1, maxRowsToScan)`. -/
def detectIdAndNameColumns (ws : Sheet) (targetIdsSet : Option (List String))
    (startRow1 : Nat := 2) (maxRowsToScan : Nat := 50) : DetectedCols :=
  match getSheetRange ws with
  | none => { idCol := none, nameCol := 1, nameCol2 := none }
  | some range =>
      let maxRow1 := min (range.er + 1) (startRow1 + maxRowsToScan - 1)
      let maxCol1 := range.ec + 1
      let rows := scanRows startRow1 maxRow1
      let nameCol := (namePairOf ((nameScoresOf ws rows maxCol1).map (·.1))).1
      let nameCol2 := (namePairOf ((nameScoresOf ws rows maxCol1).map (·.1))).2
      let useTarget := match targetIdsSet with | some ts => !ts.isEmpty | none => false
      let idCol :=
        if useTarget then
          pickBest (idScoresWithTarget ws rows maxCol1 nameCol nameCol2 targetIdsSet)
        else
          pickBest (idScoresNoTarget ws rows maxCol1 nameCol nameCol2)
      { idCol := idCol, nameCol := nameCol, nameCol2 := nameCol2 }

/-- The per-cell hit test of C9, stated independently: the normalized
cell value lies in the target set directly, or the cell is in email
format and the text before `@` lies in the target set. -/
def specExtractHit (v : Option CellVal) (ts : List String) : Bool :=
  match normalizeId v with
  | none => false
  | some n => !n.data.isEmpty &&
      (ts.contains n || (hasAt n && ts.contains (beforeAt n)))

/-- C9's claimed selection rule, stated from the claim's words: among
all columns other than the detected name column(s), in ascending order,
pick the first column whose hit count is nonzero and not exceeded by
any other candidate column. -/
def specIdColPick (ws : Sheet) (ts : List String) : Option Nat :=
  match getSheetRange ws with
  | none => none
  | some range =>
      let rows := scanRows 2 (min (range.er + 1) (2 + 50 - 1))
      let d := detectIdAndNameColumns ws (some ts) 2 50
      let cnt := fun c =>
        (rows.filter (fun r => specExtractHit (cellValue ws r c) ts)).length
      let cands := (List.range' 1 (range.ec + 1)).filter
        (fun c => !(c = d.nameCol || some c = d.nameCol2))
      cands.find? (fun c => decide (cnt c > 0) &&
        cands.all (fun c2 => decide (cnt c2 ≤ cnt c)))

/-! ### `listColumnOptions` (column catalog builder) -/

/-- `findColByTextInRow(ws, rowIdx1, textLower)`: first column of row
`rowIdx1` whose lower-cased text contains the marker substring. -/
def findColByTextInRow (ws : Sheet) (rowIdx1 : Nat) (textLower : String) : Option Nat :=
  match getSheetRange ws with
  | none => none
  | some range =>
      (List.range' range.sc (range.ec + 1 - range.sc)).findSome? (fun c0 =>
        match cellValue ws rowIdx1 (c0 + 1) with
        | none => none
        | some v =>
            if jsIncludes (jsLower v.toJsString) textLower then some (c0 + 1)
            else none)

/-- Column kind: the source's `'section' | 'lecture' | 'unknown'`. -/
inductive ColKind where
  | sec
  | lec
  | unk
  deriving DecidableEq, Repr

/-- The kind's string, as used in catalog keys. -/
def ColKind.str : ColKind → String
  | .sec => "section"
  | .lec => "lecture"
  | .unk => "unknown"

/-- `detectLectureSectionBounds(ws)` (1-based marker columns). -/
structure AreaBounds where
  colSection : Option Nat
  colLecture : Option Nat
  deriving DecidableEq, Repr

def detectLectureSectionBounds (ws : Sheet) : AreaBounds :=
  { colSection := findColByTextInRow ws 1 "attendance section",
    colLecture := findColByTextInRow ws 1 "attendance lecture" }

/-- `getSearchBoundsForKind`. -/
structure SearchBounds where
  startCol1 : Nat
  endCol1 : Nat
  kind : ColKind
  deriving DecidableEq, Repr

def getSearchBoundsForKind (kind : ColKind) (colSection colLecture : Option Nat)
    (maxCol1 : Nat) : SearchBounds :=
  match colSection with
  | none => { startCol1 := 1, endCol1 := maxCol1, kind := .unk }
  | some cs =>
      match kind with
      | .sec =>
          { startCol1 := cs,
            endCol1 := match colLecture with | some cl => cl - 1 | none => maxCol1,
            kind := .sec }
      | .lec =>
          match colLecture with
          | none => { startCol1 := 1, endCol1 := 0, kind := .lec }
          | some cl => { startCol1 := cl, endCol1 := maxCol1, kind := .lec }
      | .unk => { startCol1 := 1, endCol1 := maxCol1, kind := .unk }

/-- A header location (`col_letter` is a bijective presentation of
`col1`, kept out of the record). -/
structure Loc where
  sheet : String
  header_row : Nat
  col1 : Nat
  deriving DecidableEq, Repr

/-- `XLSX.utils.encode_col` (bijective base-26 column letters);
fuel-indexed so the recursion is structural (fuel `n` suffices since
`n / 26 < n` for `n > 0`). -/
def encodeColAux : Nat → Nat → List Char → List Char
  | _, 0, acc => acc
  | 0, _ + 1, acc => acc
  | fuel + 1, n + 1, acc => encodeColAux fuel (n / 26) (Char.ofNat (65 + n % 26) :: acc)

def encodeCol (c0 : Nat) : String := ⟨encodeColAux (c0 + 1) (c0 + 1) []⟩

/-- One selectable catalog entry (`ColumnOption`). -/
structure ColumnOption where
  key : String
  headerText : String
  kind : ColKind
  occurrences : Nat
  locations : List Loc
  deriving DecidableEq, Repr

/-- A `byHeaderText` map value during the per-sheet collection phase. -/
structure HdrEntry where
  headerText : String
  kind : ColKind
  locations : List Loc
  deriving DecidableEq, Repr

/-- The shared header-collection step: skip empty text, create a new
case-insensitive entry, or push the location (rows 2–5 may also upgrade
an `unknown` kind to the scanned area kind; row 1 always passes
`unknown`, for which the upgrade test is vacuous, matching the source's
plain push). -/
def upsertHeader (m : List (String × HdrEntry)) (headerText : String) (loc : Loc)
    (kind : ColKind) : List (String × HdrEntry) :=
  if headerText.data.isEmpty then m
  else
    match alGet m (jsLower headerText) with
    | none => alSet m (jsLower headerText) ⟨headerText, kind, [loc]⟩
    | some e =>
        alSet m (jsLower headerText)
          (if e.kind = .unk ∧ kind ≠ .unk then
            ⟨e.headerText, kind, e.locations ++ [loc]⟩
           else ⟨e.headerText, e.kind, e.locations ++ [loc]⟩)

/-- The text of a header cell: `String(raw ?? "").trim()`. -/
def headerTextAt (ws : Sheet) (r c : Nat) : String :=
  jsTrim (((cellValue ws r c).map CellVal.toJsString).getD "")

/-- Row-1 scan: every nonempty row-1 cell, kind `unknown`. -/
def scanRow1 (ws : Sheet) (sheetName : String) (maxCol1 : Nat)
    (m : List (String × HdrEntry)) : List (String × HdrEntry) :=
  (List.range' 1 maxCol1).foldl (fun m c =>
    upsertHeader m (headerTextAt ws 1 c) ⟨sheetName, 1, c⟩ .unk) m

/-- The early-stop test of the rows-2–5 scan: an id-shaped normalized
value in fixed column 2 (column B). -/
def stopCheck (ws : Sheet) (r : Nat) : Bool :=
  isIdShapedOpt (normalizeId (cellValue ws r 2))

/-- The rows actually scanned by the rows-2–5 loop: the `break` fires at
the top of the iteration, before that row is scanned. -/
def headerScanRows (ws : Sheet) : List Nat :=
  [2, 3, 4, 5].takeWhile (fun r => !stopCheck ws r)

/-- Rows-2–5 scan of one area kind over its column bounds, over a given
scanned-row list. -/
def scanRows25 (ws : Sheet) (sheetName : String) (kind : ColKind)
    (startCol1 endCol1 : Nat) (rows : List Nat)
    (m : List (String × HdrEntry)) : List (String × HdrEntry) :=
  rows.foldl (fun m r =>
    (List.range' startCol1 (endCol1 + 1 - startCol1)).foldl (fun m c =>
      upsertHeader m (headerTextAt ws r c) ⟨sheetName, r, c⟩ kind) m) m

/-- The whole per-sheet collection phase (`byHeaderText`), parameterized
by the rows-2–5 scanned-row list. -/
def sheetHeaderMapWith (ws : Sheet) (sheetName : String) (maxCol1 : Nat)
    (colSection colLecture : Option Nat) (rows : List Nat) :
    List (String × HdrEntry) :=
  let kindsToScan : List ColKind :=
    match colSection with | some _ => [.sec, .lec] | none => [.unk]
  kindsToScan.foldl (fun m kind =>
    let b := getSearchBoundsForKind kind colSection colLecture maxCol1
    scanRows25 ws sheetName kind b.startCol1 b.endCol1 rows m)
    (scanRow1 ws sheetName maxCol1 [])

/-- The per-sheet collection phase as the source performs it. -/
def sheetHeaderMap (ws : Sheet) (sheetName : String) (maxCol1 : Nat)
    (colSection colLecture : Option Nat) : List (String × HdrEntry) :=
  sheetHeaderMapWith ws sheetName maxCol1 colSection colLecture (headerScanRows ws)

/-- Insert-or-merge of a catalog entry into `byKey`. -/
def addToByKey (bk : List (String × ColumnOption)) (key headerText : String)
    (kind : ColKind) (locs : List Loc) : List (String × ColumnOption) :=
  match alGet bk key with
  | none => alSet bk key ⟨key, headerText, kind, locs.length, locs⟩
  | some opt =>
      alSet bk key
        ⟨opt.key, opt.headerText, opt.kind, opt.occurrences + locs.length,
         opt.locations ++ locs⟩

/-- The three location partitions of the split step: section range
`colSection ≤ c < colLecture`, then (else-if) lecture range
`colLecture ≤ c`, then (else) everything remaining. -/
def sectionLocsOf (cs cl : Nat) (e : HdrEntry) : List Loc :=
  e.locations.filter (fun l => decide (cs ≤ l.col1) && decide (l.col1 < cl))

def lectureLocsOf (cs cl : Nat) (e : HdrEntry) : List Loc :=
  e.locations.filter (fun l =>
    !(decide (cs ≤ l.col1) && decide (l.col1 < cl)) && decide (cl ≤ l.col1))

def unknownLocsOf (cs cl : Nat) (e : HdrEntry) : List Loc :=
  e.locations.filter (fun l =>
    !(decide (cs ≤ l.col1) && decide (l.col1 < cl)) && !decide (cl ≤ l.col1))

/-- The conversion phase: split each collected header's locations by the
actual column ranges when both markers exist, else keep the entry as
is. -/
def convertEntries (bk : List (String × ColumnOption))
    (m : List (String × HdrEntry)) (colSection colLecture : Option Nat) :
    List (String × ColumnOption) :=
  m.foldl (fun bk p =>
    let entry := p.2
    match colSection, colLecture with
    | some cs, some cl =>
        let bk1 :=
          if (sectionLocsOf cs cl entry).isEmpty then bk
          else addToByKey bk ("section::" ++ entry.headerText) entry.headerText
            .sec (sectionLocsOf cs cl entry)
        let bk2 :=
          if (lectureLocsOf cs cl entry).isEmpty then bk1
          else addToByKey bk1 ("lecture::" ++ entry.headerText) entry.headerText
            .lec (lectureLocsOf cs cl entry)
        if (unknownLocsOf cs cl entry).isEmpty then bk2
        else addToByKey bk2 ("unknown::" ++ entry.headerText) entry.headerText
          .unk (unknownLocsOf cs cl entry)
    | _, _ =>
        addToByKey bk (entry.kind.str ++ "::" ++ entry.headerText) entry.headerText
          entry.kind entry.locations) bk

/-- The requested scope: `mode` (`"single"` or anything else = multi)
and the selected sheet name. -/
structure Scope where
  mode : String
  sheetName : String
  deriving DecidableEq, Repr

/-- The sheet names of a scope: `[selectedSheet].filter(Boolean)` for
single mode, all sheet names otherwise. -/
def scopeSheetNames (wb : Workbook) (scope : Scope) : List String :=
  if scope.mode = "single" then
    if scope.sheetName = "" then [] else [scope.sheetName]
  else wb.sheetNames

/-- The final sort key `(kind::headerText)` lower-cased. -/
def optKeyLower (o : ColumnOption) : String := jsLower (o.kind.str ++ "::" ++ o.headerText)

/-- Codepoint-wise lexicographic strict order on strings. -/
def charListLt : List Char → List Char → Bool
  | [], [] => false
  | [], _ :: _ => true
  | _ :: _, [] => false
  | a :: as, b :: bs =>
      if a.toNat < b.toNat then true
      else if b.toNat < a.toNat then false
      else charListLt as bs

def strLtB (a b : String) : Bool := charListLt a.data b.data

/-- Stable insertion sort by the lower-cased key (the counterpart of the
source's `localeCompare` sort; for the ASCII keys arising here the
orders agree, and none of the proved properties depend on the order). -/
def insertOpt (o : ColumnOption) : List ColumnOption → List ColumnOption
  | [] => [o]
  | x :: xs =>
      if strLtB (optKeyLower o) (optKeyLower x) then o :: x :: xs
      else x :: insertOpt o xs

def sortOptions : List ColumnOption → List ColumnOption
  | [] => []
  | x :: xs => insertOpt x (sortOptions xs)

/-- The per-sheet contribution to `byKey`, with the scanned-row list a
parameter (the source uses `headerScanRows`). -/
def sheetContrib (wb : Workbook) (rowsOf : Sheet → List Nat)
    (bk : List (String × ColumnOption)) (sheetName : String) :
    List (String × ColumnOption) :=
  match wb.ws sheetName with
  | none => bk
  | some ws =>
      match getSheetRange ws with
      | none => bk
      | some range =>
          let maxCol1 := range.ec + 1
          let b := detectLectureSectionBounds ws
          let m := sheetHeaderMapWith ws sheetName maxCol1 b.colSection b.colLecture
            (rowsOf ws)
          convertEntries bk m b.colSection b.colLecture

def listColumnOptionsWith (wb : Workbook) (scope : Scope)
    (rowsOf : Sheet → List Nat) : Except String (List ColumnOption) :=
  let sheetNames := scopeSheetNames wb scope
  if sheetNames.isEmpty then .error "No sheets selected."
  else
    .ok (sortOptions ((sheetNames.foldl (sheetContrib wb rowsOf) []).map (·.2)))

/-- `listColumnOptions(workbook, scope)`. -/
def listColumnOptions (wb : Workbook) (scope : Scope) :
    Except String (List ColumnOption) :=
  listColumnOptionsWith wb scope headerScanRows

/-! ### C4: the rows-2–5 stop test -/

/-- The rows-2–5 scanned rows as C4 claims them: the stop test is
evaluated on the sheet's inferred identifier column, i.e. the one
chosen by the column-role detector (this definition transcribes the
claim's words, to be compared with the source's `headerScanRows`). -/
def headerScanRowsInferred (ws : Sheet) : List Nat :=
  let idc := (detectIdAndNameColumns ws none 2 50).idCol.getD 2
  [2, 3, 4, 5].takeWhile (fun r => !isIdShapedOpt (normalizeId (cellValue ws r idc)))

/-- `listColumnOptions` as C4 claims it, i.e. with the inferred-column
stop test. -/
def listColumnOptionsInferredStop (wb : Workbook) (scope : Scope) :
    Except String (List ColumnOption) :=
  listColumnOptionsWith wb scope headerScanRowsInferred

/-- The sheet refuting C4: the detector infers identifier column 3
(columns 2 is a name column, column 3 holds the ids), data begins at
row 2 in column 3, yet the scan — whose stop test reads fixed column
2 — does not stop and keeps collecting data cells as headers. -/
def c4sheet : Sheet :=
  { range := some { sr := 0, sc := 0, er := 2, ec := 2 },
    cells := [(⟨1, 1⟩, { t := "s", v := some (.str "Head") }),
              (⟨2, 2⟩, { t := "s", v := some (.str "x") }),
              (⟨2, 3⟩, { t := "s", v := some (.str "123456") }),
              (⟨3, 2⟩, { t := "s", v := some (.str "y") }),
              (⟨3, 3⟩, { t := "s", v := some (.str "234567") })] }

def c4wb : Workbook := { sheetNames := ["S"], sheets := [("S", c4sheet)] }

/-- The invariant of the `byHeaderText` map: entries are keyed by their
lower-cased header text, with distinct keys. -/
def HdrMapOk (m : List (String × HdrEntry)) : Prop :=
  (∀ p ∈ m, jsLower p.2.headerText = p.1) ∧ (m.map (·.1)).Nodup

/-- The catalog pairs one collected header entry generates in the split
(both-markers) branch. -/
def secPairOf (cs cl : Nat) (e : HdrEntry) : String × ColumnOption :=
  ("section::" ++ e.headerText,
   ⟨"section::" ++ e.headerText, e.headerText, .sec,
    (sectionLocsOf cs cl e).length, sectionLocsOf cs cl e⟩)

def lecPairOf (cs cl : Nat) (e : HdrEntry) : String × ColumnOption :=
  ("lecture::" ++ e.headerText,
   ⟨"lecture::" ++ e.headerText, e.headerText, .lec,
    (lectureLocsOf cs cl e).length, lectureLocsOf cs cl e⟩)

def unkPairOf (cs cl : Nat) (e : HdrEntry) : String × ColumnOption :=
  ("unknown::" ++ e.headerText,
   ⟨"unknown::" ++ e.headerText, e.headerText, .unk,
    (unknownLocsOf cs cl e).length, unknownLocsOf cs cl e⟩)

def genEntry (cs cl : Nat) (e : HdrEntry) : List (String × ColumnOption) :=
  (if (sectionLocsOf cs cl e).isEmpty then [] else [secPairOf cs cl e]) ++
  (if (lectureLocsOf cs cl e).isEmpty then [] else [lecPairOf cs cl e]) ++
  (if (unknownLocsOf cs cl e).isEmpty then [] else [unkPairOf cs cl e])

/-- Every key a header entry can generate. -/
def genKeys (e : HdrEntry) : List String :=
  ["section::" ++ e.headerText, "lecture::" ++ e.headerText,
   "unknown::" ++ e.headerText]

/-- A sheet refuting C1 as stated: both markers in row 1 (columns 2 and
4), `"W1"` collected in the section range (row 2, column 3), in the
lecture range (row 2, column 5) — and also in row 1 at column 1, left
of the section marker. -/
def c1xsheet : Sheet :=
  { range := some { sr := 0, sc := 0, er := 1, ec := 4 },
    cells := [(⟨1, 1⟩, { t := "s", v := some (.str "W1") }),
              (⟨1, 2⟩, { t := "s", v := some (.str "Attendance Section") }),
              (⟨1, 4⟩, { t := "s", v := some (.str "Attendance Lecture") }),
              (⟨2, 3⟩, { t := "s", v := some (.str "W1") }),
              (⟨2, 5⟩, { t := "s", v := some (.str "W1") })] }

def c1xwb : Workbook := { sheetNames := ["S"], sheets := [("S", c1xsheet)] }

/-- The spec's scenario-2 sheet: both markers, `"W1"` under each area. -/
def c1wsheet : Sheet :=
  { range := some { sr := 0, sc := 0, er := 1, ec := 4 },
    cells := [(⟨1, 2⟩, { t := "s", v := some (.str "Attendance Section") }),
              (⟨1, 4⟩, { t := "s", v := some (.str "Attendance Lecture") }),
              (⟨2, 3⟩, { t := "s", v := some (.str "W1") }),
              (⟨2, 5⟩, { t := "s", v := some (.str "W1") })] }

def c1wwb : Workbook := { sheetNames := ["S"], sheets := [("S", c1wsheet)] }

def c1wopts : List ColumnOption :=
  [⟨"lecture::Attendance Lecture", "Attendance Lecture", .lec, 1, [⟨"S", 1, 4⟩]⟩,
   ⟨"lecture::W1", "W1", .lec, 1, [⟨"S", 2, 5⟩]⟩,
   ⟨"section::Attendance Section", "Attendance Section", .sec, 1, [⟨"S", 1, 2⟩]⟩,
   ⟨"section::W1", "W1", .sec, 1, [⟨"S", 2, 3⟩]⟩]

/-! ### `buildStudentIndexForSheet` (student index builder) -/

structure IndexRow where
  row1 : Nat
  id : String
  name : String
  deriving DecidableEq, Repr

structure StudentIndex where
  byId : List (String × List IndexRow)
  rows : List IndexRow
  deriving DecidableEq, Repr

/-- The loose id-shape test of the index builder's fallback scan (no
fall-through from the email branch to the plain branch). -/
def looseIdLike (value : Option CellVal) : Bool :=
  match normalizeId value with
  | none => false
  | some n =>
      if n.data.isEmpty then false
      else if hasAt n then
        allDigits (beforeAt n) && decide ((beforeAt n).data.length > 5)
      else allDigits n && decide (n.data.length > 5)

/-- The "smart fallback" scan: the first non-name column of the first
~50 data rows whose cells are mostly id-like. -/
def looseIdColScan (ws : Sheet) (nameCol : Nat) (nameCol2 : Option Nat) : Option Nat :=
  match getSheetRange ws with
  | none => none
  | some range =>
      let maxCol1 := range.ec + 1
      let maxRow1 := min (range.er + 1) 52
      let rows := List.range' 2 (maxRow1 + 1 - 2)
      (List.range' 1 maxCol1).find? (fun c =>
        !(c = nameCol || some c = nameCol2) &&
        (decide (rows.length > 0) &&
          decide (2 * (rows.filter (fun r => looseIdLike (cellValue ws r c))).length >
            rows.length)))

/-- Extraction of a row's student id: with a target set (a JS `Set` is
truthy even when empty), membership decides; without one, the pattern
rule decides. -/
def rowSid (rawId : Option CellVal) (targetIdsSet : Option (List String)) :
    Option String :=
  match normalizeId rawId with
  | none => none
  | some normalized =>
      if normalized.data.isEmpty then none
      else if hasAt normalized then
        match targetIdsSet with
        | some ts =>
            if ts.contains (beforeAt normalized) then some (beforeAt normalized)
            else none
        | none =>
            if allDigits (beforeAt normalized) &&
                decide ((beforeAt normalized).data.length > 5) then
              some (beforeAt normalized)
            else none
      else
        match targetIdsSet with
        | some ts => if ts.contains normalized then some normalized else none
        | none =>
            if allDigits normalized && decide (normalized.data.length > 5) then
              some normalized
            else none

/-- `String(v ?? "")` for an optional cell value. -/
def strOfCell (v : Option CellVal) : String := (v.map CellVal.toJsString).getD ""

/-- A row's display name from the detected name column(s). -/
def rowName (ws : Sheet) (r nameCol : Nat) (nameCol2 : Option Nat) : String :=
  match nameCol2 with
  | some n2 =>
      jsTrim (jsTrim (strOfCell (cellValue ws r nameCol)) ++ " " ++
        jsTrim (strOfCell (cellValue ws r n2)))
  | none => jsTrim (strOfCell (cellValue ws r nameCol))

/-- `buildStudentIndexForSheet(ws, targetIdsSet)`. -/
def buildStudentIndexForSheet (ws : Sheet)
    (targetIdsSet : Option (List String) := none) : StudentIndex :=
  match getSheetRange ws with
  | none => { byId := [], rows := [] }
  | some range =>
      let maxRow1 := range.er + 1
      let d := detectIdAndNameColumns ws targetIdsSet
      let finalIdCol :=
        match d.idCol with
        | some c => c
        | none =>
            match looseIdColScan ws d.nameCol d.nameCol2 with
            | some c => c
            | none => 2
      (List.range' 2 (maxRow1 + 1 - 2)).foldl (fun idx r =>
        match rowSid (cellValue ws r finalIdCol) targetIdsSet with
        | none => idx
        | some sid =>
            let row : IndexRow := ⟨r, sid, rowName ws r d.nameCol d.nameCol2⟩
            { byId :=
                match alGet idx.byId sid with
                | none => alSet idx.byId sid [row]
                | some l => alSet idx.byId sid (l ++ [row]),
              rows := idx.rows ++ [row] })
        { byId := [], rows := [] }

/-! ### `computeEditorPreview` (preview engine) -/

structure PreviewRow where
  index : Nat
  input_id : String
  sheet : String
  row_index1 : Option Nat
  student_id : String
  student_name : String
  cell : Option Addr
  col_letter : String
  old_value : CellVal
  new_value : CellVal
  match_status : String
  note : String
  discarded : Bool := false
  deriving DecidableEq, Repr

structure ColumnMapEntry where
  sheet : String
  header_text : String
  kind : ColKind
  header_row : Nat
  col_letter : String
  deriving DecidableEq, Repr

structure EditorPreview where
  preview_rows : List PreviewRow
  column_map : List ColumnMapEntry
  selected_column : ColumnOption
  deriving DecidableEq, Repr

/-- Resolution of the selected option: exact key first, then the
header-text fallback when the key splits as `kind::text`. -/
def selectedOf (opts : List ColumnOption) (columnKey : String) : Option ColumnOption :=
  match opts.find? (fun o => o.key = columnKey) with
  | some o => some o
  | none =>
      if columnKey.data.isEmpty then none
      else
        let keyParts := jsSplitStr columnKey "::"
        if keyParts.length = 2 then
          opts.find? (fun o => o.headerText = keyParts.getD 1 "")
        else none

/-- The ordered `{id, grade}` input items of the preview loop. -/
def orderedInputOf (task : String) (orderedAttendanceIds : List String)
    (attendanceIdsSet : Option (List String))
    (gradesRows : Option (List (String × String))) : List (String × Option String) :=
  if task = "grade" then (gradesRows.getD []).map (fun x => (x.1, some x.2))
  else
    (if !orderedAttendanceIds.isEmpty then orderedAttendanceIds
     else attendanceIdsSet.getD []).map (fun id => (id, none))

/-- The target set passed to index building: the attendance set if
provided (a JS `Set` is truthy even when empty), else the grade ids. -/
def targetIdsForDetection (attendanceIdsSet : Option (List String)) (task : String)
    (gradesRows : Option (List (String × String))) : Option (List String) :=
  match attendanceIdsSet with
  | some ts => some ts
  | none =>
      if task = "grade" then
        match gradesRows with
        | some rows => some (jsSetOfList (rows.map (·.1)))
        | none => none
      else none

/-- The per-sheet student indexes of the scope. -/
def idxMapOf (wb : Workbook) (scope : Scope) (tgt : Option (List String)) :
    List (String × StudentIndex) :=
  (scopeSheetNames wb scope).foldl (fun m sn =>
    match wb.ws sn with
    | none => m
    | some ws => alSet m sn (buildStudentIndexForSheet ws tgt)) []

/-- The hits of a location's sheet for an id
(`index?.byId?.get(sid) || []`). -/
def hitsFor (idxMap : List (String × StudentIndex)) (loc : Loc) (sid : String) :
    List IndexRow :=
  match alGet idxMap loc.sheet with
  | none => []
  | some idx => (alGet idx.byId sid).getD []

/-- The match loop: visit the selected option's locations in order,
breaking at the first one whose sheet index has one hit (matched) or
more (ambiguous). -/
def findMatch (idxMap : List (String × StudentIndex)) (locs : List Loc)
    (sid : String) : Option (Loc × List IndexRow) :=
  match locs with
  | [] => none
  | loc :: rest =>
      let hits := hitsFor idxMap loc sid
      if hits.length = 1 then some (loc, hits)
      else if hits.length > 1 then some (loc, hits)
      else findMatch idxMap rest sid

/-- `getCellDisplay` — empty string for a missing cell or value. -/
def getCellDisplay (ws : Option Sheet) (a : Addr) : CellVal :=
  match ws with
  | none => .str ""
  | some ws =>
      match (ws.cells.find? (fun p => p.1 = a)).map (·.2) with
      | none => .str ""
      | some cell => cell.v.getD (.str "")

/-- The `notFound` preview row. -/
def mkNotFoundRow (idx : Nat) (sid : String) (desired : CellVal) : PreviewRow :=
  { index := idx, input_id := sid, sheet := "", row_index1 := none,
    student_id := sid, student_name := "", cell := none, col_letter := "",
    old_value := .str "", new_value := desired, match_status := "notFound",
    note := "ID not found in selected scope." }

/-- One iteration of the preview loop. -/
def mkPreviewRow (wb : Workbook) (idxMap : List (String × StudentIndex))
    (locs : List Loc) (task : String) (idx : Nat) (item : String × Option String) :
    PreviewRow :=
  let sid := jsTrim item.1
  let desired : CellVal :=
    if task = "attendance" then .num 1 else .str (item.2.getD "null")
  match findMatch idxMap locs sid with
  | none => mkNotFoundRow idx sid desired
  | some (loc, hits) =>
      let m := hits.headD ⟨0, "", ""⟩
      let ambiguous := hits.length > 1
      let addr : Addr := ⟨m.row1, loc.col1⟩
      { index := idx, input_id := sid, sheet := loc.sheet,
        row_index1 := some m.row1, student_id := sid, student_name := m.name,
        cell := some addr, col_letter := encodeCol (loc.col1 - 1),
        old_value := getCellDisplay (wb.ws loc.sheet) addr, new_value := desired,
        match_status := if ambiguous then "ambiguous" else "matched",
        note := if ambiguous then "Duplicate ID detected in sheet; please verify match."
          else "" }

/-- `computeEditorPreview`. -/
def computeEditorPreview (wb : Workbook) (scope : Scope) (columnKey : String)
    (taskType : String) (orderedAttendanceIds : List String)
    (attendanceIdsSet : Option (List String))
    (gradesRows : Option (List (String × String))) : Except String EditorPreview :=
  match listColumnOptions wb scope with
  | .error e => .error e
  | .ok opts =>
      match selectedOf opts columnKey with
      | none => .error "Selected column was not found in the workbook headers."
      | some sel =>
          let task := jsLower taskType
          if task ≠ "attendance" ∧ task ≠ "grade" then
            .error "Task type must be Attendance or Grade."
          else
            let tgt := targetIdsForDetection attendanceIdsSet task gradesRows
            let idxMap := idxMapOf wb scope tgt
            let columnMap := sel.locations.map (fun loc =>
              ColumnMapEntry.mk loc.sheet sel.headerText sel.kind loc.header_row
                (encodeCol (loc.col1 - 1)))
            let orderedInput := orderedInputOf task orderedAttendanceIds
              attendanceIdsSet gradesRows
            .ok { preview_rows := orderedInput.enum.map (fun p =>
                    mkPreviewRow wb idxMap sel.locations task (p.1 + 1) p.2),
                  column_map := columnMap,
                  selected_column := sel }

/-! ### `applyEditorEdits` (edit applier) -/

/-- `ws[addr] = cell` — upsert one cell of a sheet (the `!ref` range is
not touched, exactly as in the source). -/
def sheetSetCell (ws : Sheet) (a : Addr) (cell : Cell) : Sheet :=
  { ws with cells := alSet ws.cells a cell }

/-- The sheet object lives inside `workbook.Sheets`, so the in-place
write updates the workbook's map at that name. -/
def wbSetCell (wb : Workbook) (sheetName : String) (a : Addr) (cell : Cell) :
    Workbook :=
  { wb with sheets := alUpdate wb.sheets sheetName (fun ws => sheetSetCell ws a cell) }

def isHexDigitJs (c : Char) : Bool :=
  c.isDigit || ('a' ≤ c && c ≤ 'f') || ('A' ≤ c && c ≤ 'F')

def jsUpper (s : String) : String := ⟨s.data.map Char.toUpper⟩

/-- The validated highlight color: `none` when highlighting is off or
the color argument is falsy; the upper-cased hex digits when the
argument (minus a leading `#`) is six hex digits; the `FFFF00` default
otherwise. -/
def rgbColorOf (highlightEnabled : Bool) (highlightColor : String) : Option String :=
  if highlightEnabled && !highlightColor.data.isEmpty then
    let hex := jsTrim highlightColor
    let cleanHex := if hex.data.head? = some '#' then (⟨hex.data.drop 1⟩ : String) else hex
    if decide (cleanHex.data.length = 6) && cleanHex.data.all isHexDigitJs then
      some (jsUpper cleanHex)
    else some "FFFF00"
  else none

/-- One iteration of the applier's row loop. -/
def applyRow (highlightEnabled : Bool) (rgb : Option String) (wb : Workbook)
    (row : PreviewRow) : Workbook :=
  if row.match_status = "notFound" then wb
  else
    match row.cell with
    | none => wb
    | some addr =>
        if row.sheet = "" then wb
        else
          match wb.ws row.sheet with
          | none => wb
          | some _ =>
              let cellType : String :=
                match row.new_value with
                | .num _ => "n"
                | .bool _ => "b"
                | .str _ => "s"
              let cell : Cell :=
                { t := cellType, v := some row.new_value,
                  s := if highlightEnabled then rgb else none }
              wbSetCell wb row.sheet addr cell

/-- `applyEditorEdits(workbook, previewRows, highlightEnabled, highlightColor)`. -/
def applyEditorEdits (wb : Workbook) (previewRows : List PreviewRow)
    (highlightEnabled : Bool := false) (highlightColor : String := "#FFFF00") :
    Workbook :=
  previewRows.foldl (applyRow highlightEnabled (rgbColorOf highlightEnabled highlightColor)) wb

/-- The Edit Applier as invoked by the editor's download handler:
discarded rows are filtered out before `applyEditorEdits`. -/
def applyEditorBatch (wb : Workbook) (rows : List PreviewRow)
    (highlightEnabled : Bool := false) (highlightColor : String := "#FFFF00") :
    Workbook :=
  applyEditorEdits wb (rows.filter (fun r => !r.discarded)) highlightEnabled
    highlightColor

/-! ### C8: the preview engine as a state transformer -/

/-- One iteration of the preview loop with the workbook threaded as
mutable state, statement-by-statement from the source: the body only
reads (`getCellDisplay`) and appends a row, it contains no store, so
the state it returns is the state it received. -/
def previewLoopSt (idxMap : List (String × StudentIndex)) (locs : List Loc)
    (task : String) (st : Workbook × List PreviewRow)
    (p : Nat × (String × Option String)) : Workbook × List PreviewRow :=
  (st.1, st.2 ++ [mkPreviewRow st.1 idxMap locs task (p.1 + 1) p.2])

/-- `computeEditorPreview` with the workbook threaded as mutable state
through every step (catalog build, selection, index build, row loop),
returning the result together with the final state of the workbook. -/
def computeEditorPreviewSt (wb : Workbook) (scope : Scope) (columnKey : String)
    (taskType : String) (orderedAttendanceIds : List String)
    (attendanceIdsSet : Option (List String))
    (gradesRows : Option (List (String × String))) :
    Except String EditorPreview × Workbook :=
  match listColumnOptions wb scope with
  | .error e => (.error e, wb)
  | .ok opts =>
      match selectedOf opts columnKey with
      | none => (.error "Selected column was not found in the workbook headers.", wb)
      | some sel =>
          let task := jsLower taskType
          if task ≠ "attendance" ∧ task ≠ "grade" then
            (.error "Task type must be Attendance or Grade.", wb)
          else
            let tgt := targetIdsForDetection attendanceIdsSet task gradesRows
            let idxMap := idxMapOf wb scope tgt
            let columnMap := sel.locations.map (fun loc =>
              ColumnMapEntry.mk loc.sheet sel.headerText sel.kind loc.header_row
                (encodeCol (loc.col1 - 1)))
            let orderedInput := orderedInputOf task orderedAttendanceIds
              attendanceIdsSet gradesRows
            let final := orderedInput.enum.foldl
              (previewLoopSt idxMap sel.locations task) (wb, [])
            (.ok { preview_rows := final.2,
                   column_map := columnMap,
                   selected_column := sel }, final.1)

/-! ### The applier's per-cell effect (C2, C10) -/

/-- The stored cell record of a workbook at a sheet name and address
(`workbook.Sheets[s]?.[addr]`). -/
def cellRecordAt (wb : Workbook) (s : String) (a : Addr) : Option Cell :=
  (wb.ws s).bind (fun ws => alGet ws.cells a)

/-- The applier's type tag for a written value (`typeof value ===
"number" ? "n" : typeof value === "boolean" ? "b" : "s"`). -/
def cellTypeTag : CellVal → String
  | .num _ => "n"
  | .bool _ => "b"
  | .str _ => "s"

/-- The cell record the applier stores for a written value. -/
def writtenCell (hl : Bool) (rgb : Option String) (v : CellVal) : Cell :=
  { t := cellTypeTag v, v := some v, s := if hl then rgb else none }

/-- A row the applier's loop actually writes: not `notFound`, non-empty
sheet name, a cell address, and an existing sheet. -/
def applierKept (wb : Workbook) (r : PreviewRow) : Bool :=
  decide (r.match_status ≠ "notFound") && decide (r.sheet ≠ "") &&
    r.cell.isSome && (wb.ws r.sheet).isSome

def c10wb : Workbook :=
  { sheetNames := ["S"],
    sheets := [("S", { range := some { sr := 0, sc := 0, er := 1, ec := 1 },
                       cells := [(⟨1, 1⟩, { t := "s", v := some (.str "ID") }),
                                 (⟨2, 1⟩, { t := "s", v := some (.str "123456") })] })] }

def c10rows : List PreviewRow :=
  [{ index := 1, input_id := "111111", sheet := "", row_index1 := none,
     student_id := "111111", student_name := "", cell := none, col_letter := "",
     old_value := .str "", new_value := .num 1, match_status := "notFound",
     note := "ID not found in selected scope." },
   { index := 2, input_id := "123456", sheet := "Missing", row_index1 := some 2,
     student_id := "123456", student_name := "", cell := some ⟨2, 2⟩,
     col_letter := "B", old_value := .str "", new_value := .num 1,
     match_status := "matched", note := "" },
   { index := 3, input_id := "123456", sheet := "S", row_index1 := some 2,
     student_id := "123456", student_name := "", cell := none, col_letter := "",
     old_value := .str "", new_value := .num 1, match_status := "matched",
     note := "" },
   { index := 4, input_id := "123456", sheet := "S", row_index1 := some 2,
     student_id := "123456", student_name := "", cell := some ⟨2, 2⟩,
     col_letter := "B", old_value := .str "", new_value := .num 1,
     match_status := "matched", note := "" }]

def c2wb : Workbook :=
  { sheetNames := ["S"],
    sheets := [("S", { range := some { sr := 0, sc := 0, er := 2, ec := 2 },
                       cells := [(⟨1, 3⟩, { t := "s", v := some (.str "W1") }),
                                 (⟨2, 3⟩, { t := "n", v := some (.num 0) }),
                                 (⟨3, 3⟩, { t := "n", v := some (.num 0) })] })] }

def c2rows : List PreviewRow :=
  [{ index := 1, input_id := "123456", sheet := "S", row_index1 := some 2,
     student_id := "123456", student_name := "A", cell := some ⟨2, 3⟩,
     col_letter := "C", old_value := .num 0, new_value := .num 1,
     match_status := "matched", note := "" },
   { index := 2, input_id := "234567", sheet := "S", row_index1 := some 3,
     student_id := "234567", student_name := "B", cell := some ⟨3, 3⟩,
     col_letter := "C", old_value := .num 0, new_value := .num 1,
     match_status := "matched", note := "", discarded := true },
   { index := 3, input_id := "999999", sheet := "", row_index1 := none,
     student_id := "999999", student_name := "", cell := none, col_letter := "",
     old_value := .str "", new_value := .num 1, match_status := "notFound",
     note := "ID not found in selected scope." }]

/-! ### C3: match outcomes of the preview engine -/

/-- C3's declarative visit rule: the first location (in enumeration
order) whose sheet's StudentIndex holds at least one row for the id. -/
def specFirstHit (idxMap : List (String × StudentIndex)) (locs : List Loc)
    (sid : String) : Option (Loc × List IndexRow) :=
  locs.findSome? (fun loc =>
    let hits := hitsFor idxMap loc sid
    if hits.isEmpty then none else some (loc, hits))

def c3ws : Sheet :=
  { range := some { sr := 0, sc := 0, er := 1, ec := 2 },
    cells := [(⟨1, 1⟩, { t := "s", v := some (.str "Name") }),
              (⟨1, 2⟩, { t := "s", v := some (.str "ID") }),
              (⟨1, 3⟩, { t := "s", v := some (.str "W1") }),
              (⟨2, 1⟩, { t := "s", v := some (.str "Ali Ben") }),
              (⟨2, 2⟩, { t := "s", v := some (.str "123456") }),
              (⟨2, 3⟩, { t := "n", v := some (.num 0) })] }

def c3wb : Workbook := { sheetNames := ["S1"], sheets := [("S1", c3ws)] }

def c3out : EditorPreview :=
  { preview_rows :=
      [{ index := 1, input_id := "123456", sheet := "S1", row_index1 := some 2,
         student_id := "123456", student_name := "Ali Ben",
         cell := some ⟨2, 3⟩, col_letter := "C", old_value := .num 0,
         new_value := .num 1, match_status := "matched", note := "" },
       { index := 2, input_id := "999999", sheet := "", row_index1 := none,
         student_id := "999999", student_name := "", cell := none,
         col_letter := "", old_value := .str "", new_value := .num 1,
         match_status := "notFound", note := "ID not found in selected scope." }],
    column_map := [⟨"S1", "W1", .unk, 1, "C"⟩],
    selected_column :=
      ⟨"unknown::W1", "W1", .unk, 1, [⟨"S1", 1, 3⟩]⟩ }

def c7ws : Sheet :=
  { range := some { sr := 0, sc := 0, er := 1, ec := 1 },
    cells := [(⟨1, 1⟩, { t := "s", v := some (.str "Name") }),
              (⟨1, 2⟩, { t := "s", v := some (.str "ID") }),
              (⟨2, 1⟩, { t := "s", v := some (.str "Ali Ben") }),
              (⟨2, 2⟩, { t := "s", v := some (.str "123456") })] }

def c7wb : Workbook := { sheetNames := ["S"], sheets := [("S", c7ws)] }

def c7scope : Scope := { mode := "single", sheetName := "S" }

def c7wws : Sheet :=
  { range := some { sr := 0, sc := 0, er := 1, ec := 2 },
    cells := [(⟨1, 1⟩, { t := "s", v := some (.str "Name") }),
              (⟨1, 2⟩, { t := "s", v := some (.str "ID") }),
              (⟨1, 3⟩, { t := "s", v := some (.str "W1") }),
              (⟨2, 1⟩, { t := "s", v := some (.str "Ali Ben") }),
              (⟨2, 2⟩, { t := "s", v := some (.str "123456") }),
              (⟨2, 3⟩, { t := "n", v := some (.num 0) })] }

def c7wwb : Workbook := { sheetNames := ["S"], sheets := [("S", c7wws)] }

def c7wout : EditorPreview :=
  { preview_rows :=
      [{ index := 1, input_id := "123456", sheet := "S", row_index1 := some 2,
         student_id := "123456", student_name := "Ali Ben",
         cell := some ⟨2, 3⟩, col_letter := "C", old_value := .num 0,
         new_value := .num 1, match_status := "matched", note := "" }],
    column_map := [⟨"S", "W1", .unk, 1, "C"⟩],
    selected_column := ⟨"unknown::W1", "W1", .unk, 1, [⟨"S", 1, 3⟩]⟩ }

def c7wrows : List PreviewRow :=
  c7wout.preview_rows.map (fun r => { r with discarded := false })

/-! ### Lemmas and theorems -/

/-! #### Association-list lemmas -/

lemma alGet_cons {κ : Type} [DecidableEq κ] {ν : Type} (a : κ) (b : ν)
    (rest : List (κ × ν)) (k : κ) :
    alGet ((a, b) :: rest) k = if a = k then some b else alGet rest k := by
  simp only [alGet, List.find?]
  by_cases h : a = k <;> simp [h]

lemma alGet_alSet {κ : Type} [DecidableEq κ] {ν : Type} (m : List (κ × ν))
    (k k' : κ) (v : ν) :
    alGet (alSet m k v) k' = if k = k' then some v else alGet m k' := by
  induction m with
  | nil => simp [alSet, alGet_cons, alGet]
  | cons p rest ih =>
      obtain ⟨a, b⟩ := p
      by_cases hak : a = k
      · subst hak
        simp only [alSet, if_pos rfl]
        by_cases hk' : a = k' <;> simp [alGet_cons, hk']
      · simp only [alSet, if_neg hak]
        by_cases hk' : a = k'
        · subst hk'
          have hkk' : ¬ k = a := fun h => hak h.symm
          simp [alGet_cons, ih, hkk']
        · simp [alGet_cons, hk', ih]

lemma alSet_of_get_none {κ : Type} [DecidableEq κ] {ν : Type} {m : List (κ × ν)}
    {k : κ} (v : ν) (h : alGet m k = none) : alSet m k v = m ++ [(k, v)] := by
  induction m with
  | nil => rfl
  | cons p rest ih =>
      obtain ⟨a, b⟩ := p
      rw [alGet_cons] at h
      by_cases hak : a = k
      · simp [hak] at h
      · simp only [alSet, if_neg hak, List.cons_append, List.cons.injEq, true_and]
        exact ih (by simpa [hak] using h)

lemma alSet_length_of_get_isSome {κ : Type} [DecidableEq κ] {ν : Type}
    {m : List (κ × ν)} {k : κ} (v : ν) (h : (alGet m k).isSome = true) :
    (alSet m k v).length = m.length := by
  induction m with
  | nil => simp [alGet] at h
  | cons p rest ih =>
      obtain ⟨a, b⟩ := p
      rw [alGet_cons] at h
      by_cases hak : a = k
      · simp [alSet, hak]
      · simp only [alSet, if_neg hak, List.length_cons]
        rw [ih (by simpa [hak] using h)]

/-! #### String lemmas: id-shaped strings survive `normalizeId` -/

lemma jsWhitespace_isDigit_false {c : Char} (h : jsWhitespace c = true) :
    c.isDigit = false := by
  simp only [jsWhitespace, Bool.or_eq_true, decide_eq_true_eq] at h
  have hc : c = ' ' ∨ c = '\t' ∨ c = '\n' ∨ c = '\r' ∨ c = '\x0b' ∨ c = '\x0c' := by
    tauto
  rcases hc with rfl|rfl|rfl|rfl|rfl|rfl <;> decide

lemma dropWhile_eq_self_of_forall {p : Char → Bool} {l : List Char}
    (h : ∀ c ∈ l, p c = false) : l.dropWhile p = l := by
  cases l with
  | nil => rfl
  | cons c rest => simp [List.dropWhile_cons, h c (by simp)]

lemma jsTrim_of_allDigits {s : String} (h : allDigits s = true) : jsTrim s = s := by
  have hall : ∀ c ∈ s.data, Char.isDigit c = true := by
    simp only [allDigits, Bool.and_eq_true, List.all_eq_true] at h
    exact fun c hc => h.2 c hc
  have hnw : ∀ c ∈ s.data, jsWhitespace c = false := by
    intro c hc
    cases hw : jsWhitespace c
    · rfl
    · exact absurd (hall c hc) (by simp [jsWhitespace_isDigit_false hw])
  unfold jsTrim
  rw [dropWhile_eq_self_of_forall hnw,
      dropWhile_eq_self_of_forall (fun c hc => hnw c (by simpa using hc))]
  cases s
  simp

lemma stripDotZero_of_allDigits {s : String} (h : allDigits s = true) :
    stripDotZero s = s := by
  unfold stripDotZero
  split
  · rename_i heq
    exfalso
    have hrev : s.data.reverse = '0' :: '.' :: s.data.reverse.drop 2 := by
      conv_lhs => rw [← List.take_append_drop 2 s.data.reverse]
      rw [heq]
      rfl
    have hmem : '.' ∈ s.data := by
      have h2 : '.' ∈ s.data.reverse := by rw [hrev]; simp
      simpa using h2
    simp only [allDigits, Bool.and_eq_true, List.all_eq_true] at h
    have := h.2 '.' hmem
    simp [Char.isDigit] at this
  · rfl

lemma normalize_of_idShaped {s : String} (h : isIdShaped s = true) :
    stripDotZero (jsTrim s) = s := by
  have hd : allDigits s = true := by
    simp only [isIdShaped, Bool.and_eq_true] at h
    exact h.1
  rw [jsTrim_of_allDigits hd, stripDotZero_of_allDigits hd]

/-! #### `jsSetOfList` is empty only on the empty list -/

lemma jsSetAux_ne_nil (l : List String) (acc : List String) (h : acc ≠ []) :
    l.foldl (fun acc x => if acc.contains x then acc else acc ++ [x]) acc ≠ [] := by
  induction l generalizing acc with
  | nil => simpa
  | cons x rest ih =>
      simp only [List.foldl]
      split
      · exact ih acc h
      · exact ih _ (by simp)

lemma jsSetOfList_eq_nil_iff (l : List String) : jsSetOfList l = [] ↔ l = [] := by
  constructor
  · intro h
    cases l with
    | nil => rfl
    | cons x rest =>
        exfalso
        refine jsSetAux_ne_nil rest [x] (by simp) ?_
        simpa [jsSetOfList, List.foldl] using h
  · rintro rfl
    rfl

/-! #### Step lemmas for the two parsers -/

lemma parseIdsStep_blank {st : ParseIdsState} {line : String}
    (h : (jsTrim line).data.isEmpty = true) :
    parseIdsStep st line =
      if st.hasSeenFirstTitle then { st with currentSectionId := none } else st := by
  simp [parseIdsStep, h]

lemma specIdStep_blank {sp : SpecIdState} {es : List IdEntry} {line : String}
    (h : (jsTrim line).data.isEmpty = true) :
    specIdStep (sp, es) line = ({ sp with cur := none }, es) := by
  simp [specIdStep, h]

lemma specIdStep_id {sp : SpecIdState} {es : List IdEntry} {line : String}
    (hb : (jsTrim line).data.isEmpty = false) (hid : isIdShaped (jsTrim line) = true) :
    specIdStep (sp, es) line = (sp, es ++ [.id (jsTrim line) sp.cur]) := by
  simp [specIdStep, hb, hid]

lemma specIdStep_title {sp : SpecIdState} {es : List IdEntry} {line : String}
    (hb : (jsTrim line).data.isEmpty = false) (hid : isIdShaped (jsTrim line) = false) :
    specIdStep (sp, es) line =
      (⟨sp.titlesSeen + 1, some (sp.titlesSeen + 1)⟩, es ++ [.title (jsTrim line)]) := by
  simp [specIdStep, hb, hid]

lemma parseIdsStep_id_none {st : ParseIdsState} {line : String}
    (hb : (jsTrim line).data.isEmpty = false) (hid : isIdShaped (jsTrim line) = true)
    (hcur : st.currentSectionId = none) :
    parseIdsStep st line =
      { st with
        orderedEntries := st.orderedEntries ++ [.id (jsTrim line) none],
        orderedIdsOnly := st.orderedIdsOnly ++ [jsTrim line],
        idCounts := alSet st.idCounts (jsTrim line)
          ((alGet st.idCounts (jsTrim line)).getD 0 + 1) } := by
  simp [parseIdsStep, hb, hid, hcur, normalize_of_idShaped hid]

lemma parseIdsStep_id_some {st : ParseIdsState} {line : String} {sec : Nat}
    (hb : (jsTrim line).data.isEmpty = false) (hid : isIdShaped (jsTrim line) = true)
    (hcur : st.currentSectionId = some sec) :
    parseIdsStep st line =
      { st with
        sectionIdCounts :=
          alSet st.sectionIdCounts sec
            (alSet ((alGet st.sectionIdCounts sec).getD []) (jsTrim line)
              ((alGet ((alGet st.sectionIdCounts sec).getD []) (jsTrim line)).getD 0 + 1)),
        orderedEntries := st.orderedEntries ++ [.id (jsTrim line) (some sec)],
        orderedIdsOnly := st.orderedIdsOnly ++ [jsTrim line],
        idCounts := alSet st.idCounts (jsTrim line)
          ((alGet st.idCounts (jsTrim line)).getD 0 + 1) } := by
  simp [parseIdsStep, hb, hid, hcur, normalize_of_idShaped hid]

lemma parseIdsStep_title {st : ParseIdsState} {line : String}
    (hb : (jsTrim line).data.isEmpty = false) (hid : isIdShaped (jsTrim line) = false)
    (hfresh : alGet st.sectionIdCounts (st.sectionIdCounts.length + 1) = none) :
    parseIdsStep st line =
      { st with
        orderedEntries := st.orderedEntries ++ [.title (jsTrim line)],
        hasSeenFirstTitle := true,
        currentSectionId := some (st.sectionIdCounts.length + 1),
        sectionIdCounts := st.sectionIdCounts ++ [(st.sectionIdCounts.length + 1, [])] } := by
  simp [parseIdsStep, hb, hid, hfresh, alSet_of_get_none _ hfresh]

/-! #### The source parser folds to the claimed rule -/

lemma parse_fold_spec (lines : List String) (st : ParseIdsState)
    (sp : SpecIdState) (es : List IdEntry)
    (h1 : st.currentSectionId = sp.cur)
    (h2 : st.sectionIdCounts.length = sp.titlesSeen)
    (h3 : st.hasSeenFirstTitle = false → st.currentSectionId = none)
    (h4 : ∀ j, (alGet st.sectionIdCounts j).isSome = true →
            j ≤ st.sectionIdCounts.length)
    (h7 : ∀ sec, st.currentSectionId = some sec →
            (alGet st.sectionIdCounts sec).isSome = true)
    (h5 : st.orderedEntries = es)
    (h6 : st.orderedIdsOnly = idsOf es) :
    (lines.foldl parseIdsStep st).orderedEntries =
      (lines.foldl specIdStep (sp, es)).2 ∧
    (lines.foldl parseIdsStep st).orderedIdsOnly =
      idsOf ((lines.foldl specIdStep (sp, es)).2) := by
  induction lines generalizing st sp es with
  | nil => exact ⟨h5, h6⟩
  | cons line rest ih =>
      simp only [List.foldl]
      by_cases hblank : (jsTrim line).data.isEmpty = true
      · -- blank line: both sides clear the section context, no entry
        rw [parseIdsStep_blank hblank, specIdStep_blank hblank]
        by_cases hseen : st.hasSeenFirstTitle = true
        · rw [if_pos hseen]
          exact ih _ _ es rfl h2 (fun _ => rfl) h4 (by simp) h5 h6
        · rw [if_neg hseen]
          have hcur : st.currentSectionId = none := h3 (by simpa using hseen)
          exact ih _ _ es (by rw [hcur]) h2 (fun _ => hcur) h4
            (fun s hs => by rw [hcur] at hs; cases hs) h5 h6
      · have hb : (jsTrim line).data.isEmpty = false := by simpa using hblank
        by_cases hid : isIdShaped (jsTrim line) = true
        · -- id line
          rw [specIdStep_id hb hid]
          cases hcur : st.currentSectionId with
          | none =>
              rw [parseIdsStep_id_none hb hid hcur]
              have hcur' : sp.cur = none := h1 ▸ hcur
              rw [hcur']
              refine ih _ _ _ (by simpa using h1) (by simpa using h2)
                (fun h => by simpa using h3 h) (by simpa using h4)
                (fun s hs => h7 s (by simpa using hs)) (by simp [h5]) ?_
              simp [h6, idsOf]
          | some sec =>
              have hsec : (alGet st.sectionIdCounts sec).isSome = true := h7 sec hcur
              rw [parseIdsStep_id_some hb hid hcur]
              have hcur' : sp.cur = some sec := h1 ▸ hcur
              rw [hcur']
              refine ih _ _ _ (by simpa using h1) ?_ (by simpa using h3) ?_ ?_
                (by simp [h5]) (by simp [h6, idsOf])
              · simpa [alSet_length_of_get_isSome _ hsec] using h2
              · intro j hj
                simp only at hj ⊢
                rw [alGet_alSet] at hj
                rw [alSet_length_of_get_isSome _ hsec]
                by_cases hjs : sec = j
                · subst hjs
                  exact h4 _ hsec
                · rw [if_neg hjs] at hj
                  exact h4 _ hj
              · intro s' hs'
                simp only at hs' ⊢
                rw [alGet_alSet]
                simp only [hcur, Option.some.injEq] at hs'
                simp [hs']
        · -- title line
          have hid' : isIdShaped (jsTrim line) = false := by simpa using hid
          have hfresh : alGet st.sectionIdCounts (st.sectionIdCounts.length + 1)
              = none := by
            cases hg : alGet st.sectionIdCounts (st.sectionIdCounts.length + 1) with
            | none => rfl
            | some v =>
                have := h4 (st.sectionIdCounts.length + 1) (by simp [hg])
                omega
          rw [specIdStep_title hb hid', parseIdsStep_title hb hid' hfresh]
          rw [← h2]
          refine ih _ _ _ (by simp) (by simp) (by simp) ?_ ?_
            (by simp [h5]) (by simp [h6, idsOf])
          · intro j hj
            simp only at hj ⊢
            rw [← alSet_of_get_none _ hfresh, alGet_alSet] at hj
            simp only [List.length_append, List.length_cons, List.length_nil]
            by_cases hjs : st.sectionIdCounts.length + 1 = j
            · omega
            · rw [if_neg hjs] at hj
              have := h4 _ hj
              omega
          · intro s' hs'
            simp only [Option.some.injEq] at hs'
            rw [← alSet_of_get_none _ hfresh, alGet_alSet, if_pos hs']
            rfl

/-- **C6** (confirmed). `parseStudentIdsText` follows the claimed line
rule: a trimmed line matching `^[0-9]+$` with length > 5 becomes an
`IdEntry` carrying the current section index if one is open; any other
non-blank line becomes a `Title` opening section `1 + titles opened so
far`; a blank line clears the section context without opening a title
(`specIdStep` transcribes exactly this rule); the parser fails with
EmptyInput exactly when zero ids are parsed; and the input
`"Sec A\n123456\n234567\n\n345678"` parses to
`[Title "Sec A", Id "123456" §1, Id "234567" §1, Id "345678" (sectionless)]`
with target id set `{"123456", "234567", "345678"}`. -/
theorem c6_parseStudentIds_follows_line_rule :
    (∀ text : String,
      (match parseStudentIdsText text with
       | .ok r => r.orderedEntries = specIdEntries text ∧
                  r.targetIdsSet = jsSetOfList (idsOf (specIdEntries text))
       | .error _ => True) ∧
      ((∃ e, parseStudentIdsText text = .error e) ↔
        idsOf (specIdEntries text) = [])) ∧
    parseStudentIdsText "Sec A\n123456\n234567\n\n345678" =
      .ok { orderedEntries := [.title "Sec A", .id "123456" (some 1),
                               .id "234567" (some 1), .id "345678" none],
            targetIdsSet := ["123456", "234567", "345678"],
            totalLoadedUnique := 3,
            idCounts := [("123456", 1), ("234567", 1), ("345678", 1)],
            sectionIdCounts := [(1, [("123456", 1), ("234567", 1)])] } := by
  constructor
  · intro text
    have hmain := parse_fold_spec (jsLines text) parseIdsInit ⟨0, none⟩ []
      rfl rfl (fun _ => rfl) (fun j hj => by simp [parseIdsInit, alGet] at hj)
      (fun s hs => by simp [parseIdsInit] at hs) rfl rfl
    constructor
    · cases hp : parseStudentIdsText text with
      | error e => trivial
      | ok r =>
          simp only [parseStudentIdsText] at hp
          split at hp
          · cases hp
          · rename_i hne
            cases hp
            exact ⟨hmain.1, by rw [hmain.2]; rfl⟩
    · constructor
      · rintro ⟨e, he⟩
        simp only [parseStudentIdsText] at he
        split at he
        · rename_i hnil
          rw [List.isEmpty_iff, jsSetOfList_eq_nil_iff] at hnil
          unfold specIdEntries
          rw [← hmain.2]
          exact hnil
        · cases he
      · intro hids
        have hcond : (jsSetOfList
            ((jsLines text).foldl parseIdsStep parseIdsInit).orderedIdsOnly).isEmpty
            = true := by
          rw [List.isEmpty_iff, jsSetOfList_eq_nil_iff, hmain.2]
          unfold specIdEntries at hids
          exact hids
        exact ⟨_, by simp only [parseStudentIdsText]; rw [if_pos hcond]⟩
  · rfl

lemma splitCharsOn_length (sep : Char) (l : List Char) :
    (splitCharsOn sep l).length = l.count sep + 1 := by
  induction l with
  | nil => rfl
  | cons c rest ih =>
      simp only [splitCharsOn]
      by_cases h : c = sep
      · simp [h, List.count_cons, ih]
      · have hc : ¬ (sep = c) := fun hh => h hh.symm
        rcases ht : splitCharsOn sep rest with _ | ⟨t, ts⟩
        · have := ih
          rw [ht] at this
          simp at this
        · simp only [if_neg h, ht]
          have := ih
          rw [ht] at this
          simp only [List.length_cons] at this ⊢
          simp [List.count_cons, hc, this]

lemma splitCharsOn_ne_nil (sep : Char) (l : List Char) : splitCharsOn sep l ≠ [] := by
  intro h
  have := splitCharsOn_length sep l
  rw [h] at this
  simp at this

/-- Splitting at a comma-free prefix peels off exactly that prefix. -/
lemma splitCharsOn_decomp (sep : Char) (l : List Char) (h : l.contains sep = true) :
    splitCharsOn sep l =
      ⟨l.takeWhile (· ≠ sep)⟩ :: splitCharsOn sep ((l.dropWhile (· ≠ sep)).drop 1) := by
  induction l with
  | nil => simp at h
  | cons c rest ih =>
      by_cases hc : c = sep
      · subst hc
        simp [splitCharsOn, List.takeWhile_cons, List.dropWhile_cons]
      · have hrest : rest.contains sep = true := by
          simp only [List.contains_cons] at h
          rcases Bool.or_eq_true_iff.mp h with h1 | h1
          · have : sep = c := by simpa using h1
            exact absurd this.symm hc
          · exact h1
        simp only [splitCharsOn, if_neg hc, ih hrest, List.takeWhile_cons,
          List.dropWhile_cons]
        simp [hc]

lemma gradeTitleCond_eq (sid : String) :
    (sid.data.isEmpty || !allDigits sid || decide (sid.data.length ≤ 5))
      = !isIdShaped sid := by
  unfold isIdShaped allDigits
  cases he : sid.data.isEmpty <;> cases ha : sid.data.all Char.isDigit <;>
    cases hl : decide (sid.data.length ≤ 5) <;> simp_all

/-- **C5** (counterexample). On `"123456.0,A , B"` the code records an
id entry `("123456", "A,B")` although the left part `"123456.0"` fails
the `^[0-9]+$` id rule (the claim then requires a title entry), and the
claimed grade text — everything after the first comma, `"A , B"` —
differs from the recorded grade `"A,B"`. -/
theorem c5_counterexample :
    parseGradesText "123456.0,A , B\n111111,C" =
      .ok { rows := [("123456", "A,B"), ("111111", "C")],
            orderedEntries := [.id "123456" "A,B", .id "111111" "C"] } ∧
    isIdShaped (jsTrim (beforeComma (jsTrim "123456.0,A , B"))) = false ∧
    jsTrim (afterComma (jsTrim "123456.0,A , B")) = "A , B" ∧
    ("A , B" : String) ≠ "A,B" :=
  ⟨rfl, by decide, rfl, by decide⟩

/-- **C5** (amended). In grade mode, for every non-blank line containing
a comma: the fields are the comma-separated pieces, each trimmed, so the
left part is the trimmed text before the first comma and the recorded
grade is the comma-join of the trimmed fields after the first comma
(then trimmed); the id rule is applied to `normalizeId` of the left
part (trim plus stripping one trailing `.0`); an id-valid normalized
left part with empty grade raises MissingGrade; a left part failing the
rule after normalization makes the whole line a title; and the step
errors only in the MissingGrade case. -/
theorem c5_grade_line_rule_amended
    (acc : List (String × String) × List GradeEntry) (rawLine line : String)
    (hline : line = jsTrim rawLine)
    (hne : line.data.isEmpty = false)
    (hcomma : line.data.contains ',' = true)
    (parts : List String) (hparts : parts = (jsSplitChar line ',').map jsTrim) :
    parts.headD "" = jsTrim (beforeComma line) ∧
    parts.drop 1 = (jsSplitChar (afterComma line) ',').map jsTrim ∧
    (∀ sid, sid = stripDotZero (jsTrim (parts.headD "")) →
      (isIdShaped sid = false →
        parseGradesStep acc rawLine = .ok (acc.1, acc.2 ++ [.title line])) ∧
      (isIdShaped sid = true →
        ∀ grade, grade = jsTrim (joinComma (parts.drop 1)) →
          (grade.data.isEmpty = true →
            parseGradesStep acc rawLine =
              .error ("Missing grade for ID '" ++ sid ++ "'")) ∧
          (grade.data.isEmpty = false →
            parseGradesStep acc rawLine =
              .ok (acc.1 ++ [(sid, grade)], acc.2 ++ [.id sid grade])))) ∧
    (∀ e, parseGradesStep acc rawLine = .error e →
      isIdShaped (stripDotZero (jsTrim (parts.headD ""))) = true ∧
      (jsTrim (joinComma (parts.drop 1))).data.isEmpty = true ∧
      e = "Missing grade for ID '" ++ stripDotZero (jsTrim (parts.headD "")) ++ "'") := by
  have hdecomp := splitCharsOn_decomp ',' line.data hcomma
  have hlen2 : ¬ parts.length < 2 := by
    rw [hparts]
    simp only [List.length_map, jsSplitChar, splitCharsOn_length]
    have : line.data.count ',' ≠ 0 := by
      simp only [ne_eq, List.count_eq_zero]
      intro hmem
      have : ',' ∈ line.data := by simpa using hcomma
      exact hmem this
    omega
  have hsplit : jsSplitChar line ',' =
      beforeComma line :: jsSplitChar (afterComma line) ',' := by
    simpa [jsSplitChar, beforeComma, afterComma] using hdecomp
  have hhead : parts.headD "" = jsTrim (beforeComma line) := by
    rw [hparts, hsplit]
    rfl
  have hdrop : parts.drop 1 = (jsSplitChar (afterComma line) ',').map jsTrim := by
    rw [hparts, hsplit]
    rfl
  refine ⟨hhead, hdrop, ?_, ?_⟩
  · rintro sid rfl
    constructor
    · intro hbad
      simp only [parseGradesStep, ← hline, hne, Bool.false_eq_true, if_false,
        if_neg hlen2, ← hparts, gradeTitleCond_eq, hbad]
      rfl
    · intro hgood grade hgrade
      constructor
      · intro hempty
        simp only [parseGradesStep, ← hline, hne, Bool.false_eq_true, if_false,
          if_neg hlen2, ← hparts, gradeTitleCond_eq, hgood, ← hgrade, hempty]
        rfl
      · intro hnonempty
        simp only [parseGradesStep, ← hline, hne, Bool.false_eq_true, if_false,
          if_neg hlen2, ← hparts, gradeTitleCond_eq, hgood, ← hgrade, hnonempty]
        rfl
  · intro e he
    simp only [parseGradesStep, ← hline, hne, Bool.false_eq_true, if_false,
      if_neg hlen2, ← hparts, gradeTitleCond_eq] at he
    rcases hgood : isIdShaped (stripDotZero (jsTrim (parts.headD ""))) with _ | _
    · rw [hgood] at he
      simp at he
    · rw [hgood] at he
      simp only [Bool.not_true, Bool.false_eq_true, if_false] at he
      rcases hempty : (jsTrim (joinComma (parts.drop 1))).data.isEmpty with _ | _
      · rw [hempty] at he
        simp at he
      · rw [hempty] at he
        simp only [if_true] at he
        exact ⟨rfl, rfl, by cases he; rfl⟩

/-- Witness for `c5_grade_line_rule_amended` at the concrete line
`"123456, A , B"`. -/
theorem c5_grade_line_rule_amended_witness :
    parseGradesStep ([], []) "123456, A , B" =
      .ok ([("123456", "A,B")], [GradeEntry.id "123456" "A,B"]) := by
  have h := c5_grade_line_rule_amended ([], []) "123456, A , B"
    (jsTrim "123456, A , B") rfl (by decide) (by decide) _ rfl
  have h2 := (h.2.2.1 _ rfl).2 (by decide) _ rfl
  exact h2.2 (by decide)

/-! #### First-maximum characterization of `pickBest` -/

lemma bool_eq_of_iff {a b : Bool} (h : a = true ↔ b = true) : a = b := by
  cases a <;> cases b <;> simp_all

lemma foldl_bestStep_snd (l : List (Nat × Nat)) (acc : Option Nat × Nat) :
    (l.foldl bestStep acc).2 = l.foldl (fun m p => max m p.2) acc.2 := by
  induction l generalizing acc with
  | nil => rfl
  | cons p rest ih =>
      simp only [List.foldl]
      rw [ih]
      have : (bestStep acc p).2 = max acc.2 p.2 := by
        unfold bestStep
        split <;> omega
      rw [this]

lemma le_foldl_max (l : List (Nat × Nat)) (i : Nat) :
    (∀ q ∈ l, q.2 ≤ l.foldl (fun m p => max m p.2) i) ∧
    i ≤ l.foldl (fun m p => max m p.2) i := by
  induction l generalizing i with
  | nil => exact ⟨by simp, le_refl i⟩
  | cons p rest ih =>
      refine ⟨?_, ?_⟩
      · intro q hq
        rcases List.mem_cons.mp hq with rfl | hq'
        · simp only [List.foldl]
          exact le_trans (le_max_right i q.2) (ih (max i q.2)).2
        · exact (ih (max i p.2)).1 q hq'
      · simp only [List.foldl]
        exact le_trans (le_max_left i p.2) (ih (max i p.2)).2

lemma foldl_max_le (l : List (Nat × Nat)) (i b : Nat)
    (hi : i ≤ b) (h : ∀ q ∈ l, q.2 ≤ b) :
    l.foldl (fun m p => max m p.2) i ≤ b := by
  induction l generalizing i with
  | nil => exact hi
  | cons p rest ih =>
      simp only [List.foldl]
      exact ih _ (max_le hi (h p (by simp))) (fun q hq => h q (by simp [hq]))

lemma exists_attains_max (l : List (Nat × Nat)) (hne : l ≠ []) :
    ∃ q ∈ l, ∀ x ∈ l, x.2 ≤ q.2 := by
  induction l with
  | nil => exact absurd rfl hne
  | cons p rest ih =>
      cases rest with
      | nil => exact ⟨p, by simp, by simp⟩
      | cons r rs =>
          obtain ⟨q, hq, hmax⟩ := ih (by simp)
          by_cases hc : p.2 ≤ q.2
          · refine ⟨q, by simp [hq], ?_⟩
            intro x hx
            rcases List.mem_cons.mp hx with rfl | hx'
            · exact hc
            · exact hmax x hx'
          · refine ⟨p, by simp, ?_⟩
            intro x hx
            rcases List.mem_cons.mp hx with rfl | hx'
            · exact le_refl _
            · exact le_trans (hmax x hx') (by omega)

lemma find?_congr_local {α : Type} (l : List α) (P Q : α → Bool)
    (h : ∀ a ∈ l, P a = Q a) : l.find? P = l.find? Q := by
  induction l with
  | nil => rfl
  | cons a rest ih =>
      have ha := h a (by simp)
      simp only [List.find?]
      rw [← ha]
      cases hP : P a
      · exact ih (fun x hx => h x (by simp [hx]))
      · rfl

lemma pickBest_eq_firstMax (l : List (Nat × Nat)) (hpos : ∀ p ∈ l, 0 < p.2) :
    pickBest l = (l.find? (fun p => l.all (fun q => decide (q.2 ≤ p.2)))).map (·.1) := by
  induction l using List.reverseRecOn with
  | nil => rfl
  | append_singleton l p ih =>
      have hposl : ∀ q ∈ l, 0 < q.2 := fun q hq => hpos q (by simp [hq])
      have hM := foldl_bestStep_snd l ((none : Option Nat), 0)
      set M := l.foldl (fun m p => max m p.2) 0 with hMdef
      have hub : ∀ q ∈ l, q.2 ≤ M := (le_foldl_max l 0).1
      unfold pickBest
      rw [List.foldl_append]
      by_cases hgt : p.2 > (l.foldl bestStep (none, 0)).2
      · -- the new element strictly beats the running maximum
        have hgtM : M < p.2 := by rw [hM] at hgt; exact hgt
        simp only [List.foldl, bestStep, if_pos hgt]
        rw [List.find?_append]
        have hnone : l.find? (fun x => (l ++ [p]).all (fun q => decide (q.2 ≤ x.2)))
            = none := by
          rw [List.find?_eq_none]
          intro x hx
          simp only [List.all_append, List.all_cons, List.all_nil, List.all_eq_true,
            Bool.and_eq_true, Bool.and_true, decide_eq_true_eq]
          rintro ⟨-, hple⟩
          have := hub x hx
          omega
        rw [hnone]
        simp only [Option.none_orElse, List.find?]
        have hsat : ((l ++ [p]).all (fun q => decide (q.2 ≤ p.2))) = true := by
          simp only [List.all_append, Bool.and_eq_true, List.all_cons, List.all_nil,
            Bool.and_true, List.all_eq_true, decide_eq_true_eq]
          exact ⟨fun x hx => le_trans (hub x hx) (le_of_lt hgtM), le_refl _⟩
        rw [hsat]
        rfl
      · -- the new element does not beat the running maximum
        have hpM : p.2 ≤ M := by rw [hM] at hgt; omega
        have hlne : l ≠ [] := by
          intro hnil
          subst hnil
          have h0 : M = 0 := by rw [hMdef]; rfl
          have := hpos p (by simp)
          omega
        simp only [List.foldl, bestStep, if_neg hgt]
        have ihx := ih hposl
        unfold pickBest at ihx
        rw [ihx]
        rw [List.find?_append]
        have hcongr : l.find? (fun x => (l ++ [p]).all (fun q => decide (q.2 ≤ x.2)))
            = l.find? (fun x => l.all (fun q => decide (q.2 ≤ x.2))) := by
          apply find?_congr_local
          intro a ha
          apply bool_eq_of_iff
          simp only [List.all_append, Bool.and_eq_true, List.all_cons, List.all_nil,
            Bool.and_true, List.all_eq_true, decide_eq_true_eq]
          constructor
          · rintro ⟨h1, _⟩
            exact h1
          · intro h1
            refine ⟨h1, ?_⟩
            have hMle : M ≤ a.2 := foldl_max_le l 0 a.2 (by omega) h1
            omega
        rw [hcongr]
        obtain ⟨q, hq, hqmax⟩ := exists_attains_max l hlne
        have hfound : (l.find? (fun x => l.all (fun q2 => decide (q2.2 ≤ x.2)))).isSome
            = true := by
          rw [List.find?_isSome]
          exact ⟨q, hq, by simpa using hqmax⟩
        obtain ⟨r, hr⟩ := Option.isSome_iff_exists.mp hfound
        rw [hr]
        rfl

/-- Bridge: selecting the first maximum of the positive score map equals
scanning the candidate columns directly. -/
lemma find?_scores (cands : List Nat) (cnt : Nat → Nat) (P : Nat × Nat → Bool)
    (Q : Nat → Bool)
    (h : ∀ c ∈ cands, (0 < cnt c → P (c, cnt c) = Q c) ∧ (cnt c = 0 → Q c = false)) :
    ((cands.filterMap (fun c => if cnt c > 0 then some (c, cnt c) else none)).find?
        P).map (·.1) = cands.find? Q := by
  induction cands with
  | nil => rfl
  | cons c cs ih =>
      have hc := h c (by simp)
      by_cases hpos : 0 < cnt c
      · simp only [List.filterMap_cons, if_pos hpos, List.find?]
        rw [← hc.1 hpos]
        cases hP : P (c, cnt c)
        · exact ih (fun x hx => h x (by simp [hx]))
        · rfl
      · have hz : cnt c = 0 := by omega
        simp only [List.filterMap_cons, if_neg hpos, List.find?, hc.2 hz]
        exact ih (fun x hx => h x (by simp [hx]))

lemma filterMap_skip {β : Type} (l : List Nat) (skip : Nat → Bool)
    (g : Nat → Option β) :
    l.filterMap (fun c => if skip c then none else g c) =
      (l.filter (fun c => !skip c)).filterMap g := by
  induction l with
  | nil => rfl
  | cons c cs ih =>
      by_cases hc : skip c = true
      · simp [List.filterMap_cons, List.filter_cons, hc, ih]
      · have hc' : skip c = false := by simpa using hc
        simp [List.filterMap_cons, List.filter_cons, hc', ih]

lemma pick_eq_scan (cands : List Nat) (cnt : Nat → Nat) :
    pickBest (cands.filterMap (fun c => if cnt c > 0 then some (c, cnt c) else none)) =
      cands.find? (fun c => decide (cnt c > 0) &&
        cands.all (fun c2 => decide (cnt c2 ≤ cnt c))) := by
  have hpos : ∀ p ∈ cands.filterMap
      (fun c => if cnt c > 0 then some (c, cnt c) else none), 0 < p.2 := by
    intro p hp
    simp only [List.mem_filterMap] at hp
    obtain ⟨c, _, hfc⟩ := hp
    split at hfc
    · cases hfc
      assumption
    · cases hfc
  rw [pickBest_eq_firstMax _ hpos]
  apply find?_scores
  intro c hc
  refine ⟨?_, ?_⟩
  · intro hcpos
    apply bool_eq_of_iff
    constructor
    · intro hall
      simp only [Bool.and_eq_true, decide_eq_true_eq, List.all_eq_true]
      refine ⟨hcpos, ?_⟩
      rw [List.all_eq_true] at hall
      intro c2 hc2
      by_cases h2 : 0 < cnt c2
      · have hmem : (c2, cnt c2) ∈ cands.filterMap
            (fun c => if cnt c > 0 then some (c, cnt c) else none) := by
          simp only [List.mem_filterMap]
          exact ⟨c2, hc2, by simp [h2]⟩
        simpa using hall _ hmem
      · omega
    · intro hQ
      simp only [Bool.and_eq_true, decide_eq_true_eq, List.all_eq_true] at hQ
      rw [List.all_eq_true]
      intro q hq
      simp only [List.mem_filterMap] at hq
      obtain ⟨c2, hc2, hfc⟩ := hq
      split at hfc
      · cases hfc
        simp only [decide_eq_true_eq]
        exact hQ.2 c2 hc2
      · cases hfc
  · intro hz
    simp [hz]

lemma extractId_isSome_eq (v : Option CellVal) (ts : List String) (hts : ts ≠ []) :
    (extractId v (some ts)).isSome = specExtractHit v ts := by
  unfold extractId specExtractHit
  have hne : ¬ (ts.isEmpty = true) := by simp [List.isEmpty_iff, hts]
  dsimp only
  rw [if_neg hne]
  cases hn : normalizeId v with
  | none => rfl
  | some n =>
      by_cases he : n.data.isEmpty
      · simp [he]
      · have he' : n.data.isEmpty = false := by simpa using he
        simp only [he', Bool.false_eq_true, if_false, Bool.not_false, Bool.true_and]
        cases hat : (hasAt n && ts.contains (beforeAt n)) <;>
          cases hcn : ts.contains n <;>
            simp_all

/-- **C9** (confirmed). With a nonempty target-id set, the detector's
identifier column is the first candidate column (every column except
the detected name columns, ascending) attaining the maximal nonzero
count of cells whose extracted value lies in the target set; `none`
when no candidate has a nonzero count. -/
theorem c9_idCol_is_first_maximal_match_column (ws : Sheet) (ts : List String)
    (hts : ts ≠ []) :
    (detectIdAndNameColumns ws (some ts) 2 50).idCol = specIdColPick ws ts := by
  unfold specIdColPick
  unfold detectIdAndNameColumns
  cases hr : getSheetRange ws with
  | none => rfl
  | some range =>
      simp only
      have huse : (!ts.isEmpty) = true := by simpa [List.isEmpty_iff] using hts
      rw [if_pos huse]
      have hcnt : ∀ c, targetMatchCount ws (scanRows 2 (min (range.er + 1) (2 + 50 - 1)))
          (some ts) c =
          ((scanRows 2 (min (range.er + 1) (2 + 50 - 1))).filter
            (fun r => specExtractHit (cellValue ws r c) ts)).length := by
        intro c
        unfold targetMatchCount
        congr 1
        apply List.filter_congr
        intro r _
        exact extractId_isSome_eq _ ts hts
      unfold idScoresWithTarget
      rw [filterMap_skip]
      simp only [hcnt]
      exact pick_eq_scan _ _

/-- Witness for `c9_idCol_is_first_maximal_match_column`: a sheet whose
columns 2 and 3 both hold one target id (a tie) — the first candidate,
column 2, is selected by both the code and the claimed rule. -/
theorem c9_idCol_witness :
    (["111111", "222222"] : List String) ≠ [] ∧
    (detectIdAndNameColumns
      { range := some { sr := 0, sc := 0, er := 2, ec := 2 },
        cells := [(⟨2, 2⟩, { t := "s", v := some (.str "111111") }),
                  (⟨2, 3⟩, { t := "s", v := some (.str "222222") })] }
      (some ["111111", "222222"]) 2 50).idCol = some 2 ∧
    specIdColPick
      { range := some { sr := 0, sc := 0, er := 2, ec := 2 },
        cells := [(⟨2, 2⟩, { t := "s", v := some (.str "111111") }),
                  (⟨2, 3⟩, { t := "s", v := some (.str "222222") })] }
      ["111111", "222222"] = some 2 := by
  refine ⟨by decide, ?_, ?_⟩
  · rfl
  · rw [← c9_idCol_is_first_maximal_match_column _ _ (by decide)]
    rfl

/-- **C4** (counterexample). On `c4wb` the inferred identifier column
is 3 and its row-2 cell is id-shaped, so under the claim the scan stops
at once and the catalog holds only the row-1 header; the code instead
evaluates the stop test on fixed column 2 (not id-shaped here), keeps
scanning, and returns five catalog entries. -/
theorem c4_counterexample :
    (detectIdAndNameColumns c4sheet none 2 50).idCol = some 3 ∧
    isIdShapedOpt (normalizeId (cellValue c4sheet 2 3)) = true ∧
    stopCheck c4sheet 2 = false ∧
    (listColumnOptions c4wb { mode := "single", sheetName := "S" }).toOption.map
      List.length = some 5 ∧
    (listColumnOptionsInferredStop c4wb
      { mode := "single", sheetName := "S" }).toOption.map List.length = some 1 :=
  ⟨rfl, rfl, rfl, rfl, rfl⟩

lemma mem_takeWhile_range' (p : Nat → Bool) (r : Nat) :
    ∀ (n a : Nat),
      (r ∈ (List.range' a n).takeWhile p ↔
        (a ≤ r ∧ r < a + n ∧ ∀ r', a ≤ r' → r' ≤ r → p r' = true)) := by
  intro n
  induction n with
  | zero => intro a; simp; omega
  | succ n ih =>
      intro a
      rw [List.range'_succ]
      simp only [List.takeWhile]
      cases hpa : p a with
      | false =>
          simp only [List.not_mem_nil, false_iff]
          rintro ⟨h1, _, hall⟩
          rw [hall a (le_refl a) h1] at hpa
          cases hpa
      | true =>
          simp only [List.mem_cons]
          constructor
          · rintro (rfl | hr)
            · refine ⟨le_refl r, by omega, ?_⟩
              intro r' h1 h2
              have : r' = r := by omega
              rw [this]
              exact hpa
            · obtain ⟨h1, h2, hall⟩ := (ih (a + 1)).mp hr
              refine ⟨by omega, by omega, ?_⟩
              intro r' hr1 hr2
              by_cases hra : r' = a
              · rw [hra]; exact hpa
              · exact hall r' (by omega) hr2
          · rintro ⟨h1, h2, hall⟩
            by_cases hra : r = a
            · exact Or.inl hra
            · refine Or.inr ((ih (a + 1)).mpr ⟨by omega, by omega, ?_⟩)
              intro r' hr1 hr2
              exact hall r' (by omega) hr2

/-- **C4** (amended). The rows-2–5 scan of the Catalog Builder stops,
for every sheet, at the first row whose *fixed column 2* (column B)
holds an id-shaped normalized value — regardless of the inferred
identifier column: a row is scanned iff it lies in 2–5 and no row up to
it passes the column-2 stop test, and the scanned-row list depends only
on the sheet's column-2 cells. -/
theorem c4_stop_test_amended :
    (∀ ws r, r ∈ headerScanRows ws ↔
      ((r = 2 ∨ r = 3 ∨ r = 4 ∨ r = 5) ∧
        ∀ r', 2 ≤ r' → r' ≤ r → stopCheck ws r' = false)) ∧
    (∀ ws ws', (∀ r, cellValue ws r 2 = cellValue ws' r 2) →
      headerScanRows ws = headerScanRows ws') := by
  constructor
  · intro ws r
    have hlist : ([2, 3, 4, 5] : List Nat) = List.range' 2 4 := by decide
    unfold headerScanRows
    rw [hlist, mem_takeWhile_range' (fun r => !stopCheck ws r) r 4 2]
    constructor
    · rintro ⟨h1, h2, hall⟩
      refine ⟨by omega, ?_⟩
      intro r' hr1 hr2
      have := hall r' hr1 hr2
      simpa using this
    · rintro ⟨h1, hall⟩
      refine ⟨by omega, by omega, ?_⟩
      intro r' hr1 hr2
      have := hall r' hr1 hr2
      simpa using this
  · intro ws ws' h
    have hfun : (fun r => !stopCheck ws r) = (fun r => !stopCheck ws' r) := by
      funext r
      unfold stopCheck
      rw [h r]
    unfold headerScanRows
    rw [hfun]

/-- Witness for `c4_stop_test_amended`: two sheets equal on column 2
but differing elsewhere (a cell at row 7, column 5) produce the same
scanned-row list, and membership matches the stop rule on `c4sheet`. -/
theorem c4_stop_test_amended_witness :
    headerScanRows
        { range := some { sr := 0, sc := 0, er := 6, ec := 4 },
          cells := [(⟨2, 2⟩, { t := "s", v := some (.str "x") })] } =
      headerScanRows
        { range := some { sr := 0, sc := 0, er := 6, ec := 4 },
          cells := [(⟨2, 2⟩, { t := "s", v := some (.str "x") }),
                    (⟨7, 5⟩, { t := "s", v := some (.str "zzz") })] } ∧
    (3 ∈ headerScanRows c4sheet ↔
      ((3 = 2 ∨ 3 = 3 ∨ 3 = 4 ∨ 3 = 5) ∧
        ∀ r', 2 ≤ r' → r' ≤ 3 → stopCheck c4sheet r' = false)) := by
  constructor
  · apply c4_stop_test_amended.2
    intro r
    simp only [cellValue, List.find?]
    by_cases h2 : r = 2
    · subst h2
      rfl
    · have hne : (Addr.mk 2 2 = Addr.mk r 2) = False := by
        simp [Addr.mk.injEq]
        omega
      have hne2 : (Addr.mk 7 5 = Addr.mk r 2) = False := by
        simp [Addr.mk.injEq]
      simp [hne, hne2]
  · exact c4_stop_test_amended.1 c4sheet 3

/-! ### C1: the area-split invariant -/

lemma mem_alSet {κ : Type} [DecidableEq κ] {ν : Type} (m : List (κ × ν)) (k : κ)
    (v : ν) : ∀ q ∈ alSet m k v, q = (k, v) ∨ q ∈ m := by
  induction m with
  | nil => simp [alSet]
  | cons p rest ih =>
      obtain ⟨a, b⟩ := p
      intro q hq
      by_cases hak : a = k
      · simp only [alSet, if_pos hak] at hq
        rcases List.mem_cons.mp hq with rfl | hq'
        · exact Or.inl rfl
        · exact Or.inr (by simp [hq'])
      · simp only [alSet, if_neg hak] at hq
        rcases List.mem_cons.mp hq with rfl | hq'
        · exact Or.inr (by simp)
        · rcases ih q hq' with h | h
          · exact Or.inl h
          · exact Or.inr (by simp [h])

lemma alGet_mem {κ : Type} [DecidableEq κ] {ν : Type} {m : List (κ × ν)} {k : κ}
    {v : ν} (h : alGet m k = some v) : (k, v) ∈ m := by
  induction m with
  | nil => simp [alGet] at h
  | cons p rest ih =>
      obtain ⟨a, b⟩ := p
      rw [alGet_cons] at h
      by_cases hak : a = k
      · rw [if_pos hak] at h
        cases h
        subst hak
        simp
      · rw [if_neg hak] at h
        exact List.mem_cons_of_mem _ (ih h)

lemma alGet_eq_none_iff {κ : Type} [DecidableEq κ] {ν : Type} (m : List (κ × ν))
    (k : κ) : alGet m k = none ↔ k ∉ m.map (·.1) := by
  induction m with
  | nil => simp [alGet]
  | cons p rest ih =>
      obtain ⟨a, b⟩ := p
      rw [alGet_cons]
      by_cases hak : a = k
      · simp [hak]
      · rw [if_neg hak, ih]
        simp only [List.map_cons, List.mem_cons, not_or]
        constructor
        · intro h
          exact ⟨fun hk => hak hk.symm, h⟩
        · exact fun h => h.2

lemma map_fst_alSet {κ : Type} [DecidableEq κ] {ν : Type} (m : List (κ × ν))
    (k : κ) (v : ν) :
    (alSet m k v).map (·.1) =
      if (alGet m k).isSome then m.map (·.1) else m.map (·.1) ++ [k] := by
  induction m with
  | nil => simp [alSet, alGet]
  | cons p rest ih =>
      obtain ⟨a, b⟩ := p
      rw [alGet_cons]
      by_cases hak : a = k
      · simp [alSet, hak]
      · simp only [alSet, if_neg hak, List.map_cons, ih]
        by_cases hs : (alGet rest k).isSome <;> simp [hs, hak]

lemma nodup_fst_alSet {κ : Type} [DecidableEq κ] {ν : Type} {m : List (κ × ν)}
    (k : κ) (v : ν) (h : (m.map (·.1)).Nodup) : ((alSet m k v).map (·.1)).Nodup := by
  rw [map_fst_alSet]
  by_cases hs : (alGet m k).isSome
  · simp [hs, h]
  · have hnone : alGet m k = none := by
      cases hg : alGet m k
      · rfl
      · rw [hg] at hs; simp at hs
    rw [if_neg hs]
    rw [List.nodup_append]
    refine ⟨h, by simp, ?_⟩
    intro x hx
    simp only [List.mem_singleton]
    intro hk
    rw [hk] at hx
    exact (alGet_eq_none_iff m k).mp hnone hx

lemma upsertHeader_ok {m : List (String × HdrEntry)} (text : String) (loc : Loc)
    (kind : ColKind) (h : HdrMapOk m) : HdrMapOk (upsertHeader m text loc kind) := by
  obtain ⟨h1, h2⟩ := h
  unfold upsertHeader
  split
  · exact ⟨h1, h2⟩
  · cases hg : alGet m (jsLower text) with
    | none =>
        refine ⟨?_, nodup_fst_alSet _ _ h2⟩
        intro p hp
        rcases mem_alSet _ _ _ p hp with rfl | hp'
        · rfl
        · exact h1 p hp'
    | some e =>
        have he : (jsLower text, e) ∈ m := alGet_mem hg
        have hetext : jsLower e.headerText = jsLower text := h1 _ he
        refine ⟨?_, nodup_fst_alSet _ _ h2⟩
        intro p hp
        rcases mem_alSet _ _ _ p hp with rfl | hp'
        · split <;> exact hetext
        · exact h1 p hp'

lemma foldl_preserve {α β : Type} (P : α → Prop) (g : α → β → α)
    (hg : ∀ a b, P a → P (g a b)) : ∀ (l : List β) (a : α), P a → P (l.foldl g a) := by
  intro l
  induction l with
  | nil => exact fun a h => h
  | cons b rest ih => exact fun a h => ih _ (hg a b h)

lemma sheetHeaderMapWith_ok (ws : Sheet) (sheetName : String) (maxCol1 : Nat)
    (colSection colLecture : Option Nat) (rows : List Nat) :
    HdrMapOk (sheetHeaderMapWith ws sheetName maxCol1 colSection colLecture rows) := by
  have hrow1 : HdrMapOk (scanRow1 ws sheetName maxCol1 []) := by
    unfold scanRow1
    exact foldl_preserve _ _ (fun m c hm => upsertHeader_ok _ _ _ hm) _ _
      ⟨by simp, by simp⟩
  unfold sheetHeaderMapWith
  refine foldl_preserve _ _ (fun m kind hm => ?_) _ _ hrow1
  unfold scanRows25
  refine foldl_preserve _ _ (fun m r hm => ?_) _ _ hm
  exact foldl_preserve _ _ (fun m c hm => upsertHeader_ok _ _ _ hm) _ _ hm

lemma str_ext {a b : String} (h : a.data = b.data) : a = b := by
  cases a with
  | mk l1 =>
      cases b with
      | mk l2 => exact congrArg String.mk h

lemma string_append_data (a b : String) : (a ++ b).data = a.data ++ b.data := rfl

lemma key_inj_sec {t1 t2 : String} (h : "section::" ++ t1 = "section::" ++ t2) :
    t1 = t2 := by
  have hd := congrArg String.data h
  rw [string_append_data, string_append_data] at hd
  exact str_ext (List.append_cancel_left hd)

lemma key_inj_lec {t1 t2 : String} (h : "lecture::" ++ t1 = "lecture::" ++ t2) :
    t1 = t2 := by
  have hd := congrArg String.data h
  rw [string_append_data, string_append_data] at hd
  exact str_ext (List.append_cancel_left hd)

lemma key_inj_unk {t1 t2 : String} (h : "unknown::" ++ t1 = "unknown::" ++ t2) :
    t1 = t2 := by
  have hd := congrArg String.data h
  rw [string_append_data, string_append_data] at hd
  exact str_ext (List.append_cancel_left hd)

lemma key_ne_sec_lec (t1 t2 : String) : "section::" ++ t1 ≠ "lecture::" ++ t2 := by
  intro h
  have h1 : ("section::" ++ t1).data.head? = some 's' := rfl
  have h2 : ("lecture::" ++ t2).data.head? = some 'l' := rfl
  rw [h, h2] at h1
  exact absurd h1 (by decide)

lemma key_ne_sec_unk (t1 t2 : String) : "section::" ++ t1 ≠ "unknown::" ++ t2 := by
  intro h
  have h1 : ("section::" ++ t1).data.head? = some 's' := rfl
  have h2 : ("unknown::" ++ t2).data.head? = some 'u' := rfl
  rw [h, h2] at h1
  exact absurd h1 (by decide)

lemma key_ne_lec_unk (t1 t2 : String) : "lecture::" ++ t1 ≠ "unknown::" ++ t2 := by
  intro h
  have h1 : ("lecture::" ++ t1).data.head? = some 'l' := rfl
  have h2 : ("unknown::" ++ t2).data.head? = some 'u' := rfl
  rw [h, h2] at h1
  exact absurd h1 (by decide)

/-- Lower-casing commutes with the key prefixes, so equal split keys
force equal lower-cased header texts. -/
lemma key_eq_lower {pre : String} {t1 t2 : String}
    (hinj : ∀ {a b : String}, pre ++ a = pre ++ b → a = b)
    (h : pre ++ t1 = pre ++ t2) : t1 = t2 := hinj h

lemma mem_genEntry {cs cl : Nat} {e : HdrEntry} {q : String × ColumnOption}
    (hq : q ∈ genEntry cs cl e) :
    q = secPairOf cs cl e ∨ q = lecPairOf cs cl e ∨ q = unkPairOf cs cl e := by
  unfold genEntry at hq
  rcases List.mem_append.mp hq with hq' | hq'
  · rcases List.mem_append.mp hq' with hq'' | hq''
    · left
      split at hq'' <;> simp_all
    · right; left
      split at hq'' <;> simp_all
  · right; right
    split at hq' <;> simp_all

lemma mem_genEntry_key {cs cl : Nat} {e : HdrEntry} {q : String × ColumnOption}
    (hq : q ∈ genEntry cs cl e) : q.1 ∈ genKeys e := by
  rcases mem_genEntry hq with rfl | rfl | rfl <;> simp [genKeys, secPairOf,
    lecPairOf, unkPairOf]

/-- Distinct lower-cased header texts generate disjoint key sets. -/
lemma genKeys_disjoint {e1 e2 : HdrEntry}
    (h : jsLower e1.headerText ≠ jsLower e2.headerText) :
    ∀ k1 ∈ genKeys e1, ∀ k2 ∈ genKeys e2, k1 ≠ k2 := by
  intro k1 hk1 k2 hk2
  have htext : e1.headerText ≠ e2.headerText := fun he => h (he ▸ rfl)
  simp only [genKeys, List.mem_cons, List.not_mem_nil, or_false] at hk1 hk2
  rcases hk1 with rfl | rfl | rfl <;> rcases hk2 with rfl | rfl | rfl
  · exact fun hk => htext (key_inj_sec hk)
  · exact key_ne_sec_lec _ _
  · exact key_ne_sec_unk _ _
  · exact fun hk => (key_ne_sec_lec _ _) hk.symm
  · exact fun hk => htext (key_inj_lec hk)
  · exact key_ne_lec_unk _ _
  · exact fun hk => (key_ne_sec_unk _ _) hk.symm
  · exact fun hk => (key_ne_lec_unk _ _) hk.symm
  · exact fun hk => htext (key_inj_unk hk)

lemma alGet_append {κ : Type} [DecidableEq κ] {ν : Type} (l1 l2 : List (κ × ν))
    (k : κ) : alGet (l1 ++ l2) k = (alGet l1 k).orElse (fun _ => alGet l2 k) := by
  simp only [alGet, List.find?_append]
  cases List.find? (fun p => p.1 = k) l1 <;> simp [Option.orElse]

lemma alGet_append_none {κ : Type} [DecidableEq κ] {ν : Type}
    {l1 : List (κ × ν)} {k : κ} (h1 : alGet l1 k = none) {l2 : List (κ × ν)}
    (h2 : ∀ q ∈ l2, q.1 ≠ k) : alGet (l1 ++ l2) k = none := by
  rw [alGet_append, h1]
  have : alGet l2 k = none := by
    rw [alGet_eq_none_iff]
    intro hk
    simp only [List.mem_map] at hk
    obtain ⟨q, hq, hqk⟩ := hk
    exact h2 q hq hqk
  simp [Option.orElse, this]

lemma addToByKey_fresh (bk : List (String × ColumnOption)) (key headerText : String)
    (kind : ColKind) (locs : List Loc) (h : alGet bk key = none) :
    addToByKey bk key headerText kind locs =
      bk ++ [(key, ⟨key, headerText, kind, locs.length, locs⟩)] := by
  unfold addToByKey
  rw [h]
  exact alSet_of_get_none _ h

/-- In the split branch, with all generated keys fresh, one fold step
appends exactly the entry's generated pairs. -/
lemma convert_step_fresh (bk : List (String × ColumnOption)) (cs cl : Nat)
    (e : HdrEntry) (hfresh : ∀ k ∈ genKeys e, alGet bk k = none) :
    (let bk1 :=
      if (sectionLocsOf cs cl e).isEmpty then bk
      else addToByKey bk ("section::" ++ e.headerText) e.headerText
        .sec (sectionLocsOf cs cl e)
    let bk2 :=
      if (lectureLocsOf cs cl e).isEmpty then bk1
      else addToByKey bk1 ("lecture::" ++ e.headerText) e.headerText
        .lec (lectureLocsOf cs cl e)
    if (unknownLocsOf cs cl e).isEmpty then bk2
    else addToByKey bk2 ("unknown::" ++ e.headerText) e.headerText
      .unk (unknownLocsOf cs cl e)) = bk ++ genEntry cs cl e := by
  have hsec : alGet bk ("section::" ++ e.headerText) = none :=
    hfresh _ (by simp [genKeys])
  have hlec : alGet bk ("lecture::" ++ e.headerText) = none :=
    hfresh _ (by simp [genKeys])
  have hunk : alGet bk ("unknown::" ++ e.headerText) = none :=
    hfresh _ (by simp [genKeys])
  dsimp only
  rw [show
      (if (sectionLocsOf cs cl e).isEmpty then bk
       else addToByKey bk ("section::" ++ e.headerText) e.headerText .sec
         (sectionLocsOf cs cl e)) =
      bk ++ (if (sectionLocsOf cs cl e).isEmpty then []
             else [secPairOf cs cl e]) from by
    split
    · simp
    · rw [addToByKey_fresh _ _ _ _ _ hsec]
      rfl]
  have hget1 : alGet (bk ++ (if (sectionLocsOf cs cl e).isEmpty then []
      else [secPairOf cs cl e])) ("lecture::" ++ e.headerText) = none := by
    apply alGet_append_none hlec
    intro q hq
    split at hq
    · cases hq
    · rw [List.mem_singleton] at hq
      subst hq
      exact fun hk => (key_ne_sec_lec _ _) hk
  rw [show
      (if (lectureLocsOf cs cl e).isEmpty then
        bk ++ (if (sectionLocsOf cs cl e).isEmpty then [] else [secPairOf cs cl e])
       else addToByKey
         (bk ++ (if (sectionLocsOf cs cl e).isEmpty then [] else [secPairOf cs cl e]))
         ("lecture::" ++ e.headerText) e.headerText .lec (lectureLocsOf cs cl e)) =
      bk ++ (if (sectionLocsOf cs cl e).isEmpty then [] else [secPairOf cs cl e])
         ++ (if (lectureLocsOf cs cl e).isEmpty then [] else [lecPairOf cs cl e]) from by
    split
    · simp
    · rw [addToByKey_fresh _ _ _ _ _ hget1]
      rfl]
  have hget2 : alGet
      (bk ++ (if (sectionLocsOf cs cl e).isEmpty then [] else [secPairOf cs cl e])
          ++ (if (lectureLocsOf cs cl e).isEmpty then [] else [lecPairOf cs cl e]))
      ("unknown::" ++ e.headerText) = none := by
    apply alGet_append_none
    · apply alGet_append_none hunk
      intro q hq
      split at hq
      · cases hq
      · rw [List.mem_singleton] at hq
        subst hq
        exact fun hk => (key_ne_sec_unk _ _) hk
    · intro q hq
      split at hq
      · cases hq
      · rw [List.mem_singleton] at hq
        subst hq
        exact fun hk => (key_ne_lec_unk _ _) hk
  rw [show
      (if (unknownLocsOf cs cl e).isEmpty then
        bk ++ (if (sectionLocsOf cs cl e).isEmpty then [] else [secPairOf cs cl e])
           ++ (if (lectureLocsOf cs cl e).isEmpty then [] else [lecPairOf cs cl e])
       else addToByKey
         (bk ++ (if (sectionLocsOf cs cl e).isEmpty then [] else [secPairOf cs cl e])
             ++ (if (lectureLocsOf cs cl e).isEmpty then [] else [lecPairOf cs cl e]))
         ("unknown::" ++ e.headerText) e.headerText .unk (unknownLocsOf cs cl e)) =
      bk ++ (if (sectionLocsOf cs cl e).isEmpty then [] else [secPairOf cs cl e])
         ++ (if (lectureLocsOf cs cl e).isEmpty then [] else [lecPairOf cs cl e])
         ++ (if (unknownLocsOf cs cl e).isEmpty then [] else [unkPairOf cs cl e]) from by
    split
    · simp
    · rw [addToByKey_fresh _ _ _ _ _ hget2]
      rfl]
  unfold genEntry
  simp [List.append_assoc]

/-- With fresh keys throughout (single-sheet catalog: `byKey` starts
empty), the conversion phase is a plain concatenation of per-entry
blocks. -/
lemma convertEntries_single (cs cl : Nat) :
    ∀ (m : List (String × HdrEntry)) (bk : List (String × ColumnOption)),
      (∀ q ∈ bk, ∀ p ∈ m, q.1 ∉ genKeys p.2) →
      (∀ p ∈ m, jsLower p.2.headerText = p.1) →
      (m.map (·.1)).Nodup →
      convertEntries bk m (some cs) (some cl) =
        bk ++ (m.map (fun p => genEntry cs cl p.2)).flatten := by
  intro m
  induction m with
  | nil =>
      intro bk _ _ _
      simp [convertEntries]
  | cons p rest ih =>
      intro bk hfresh hinv hnodup
      have hfresh1 : ∀ k ∈ genKeys p.2, alGet bk k = none := by
        intro k hk
        rw [alGet_eq_none_iff]
        intro hmem
        simp only [List.mem_map] at hmem
        obtain ⟨q, hq, hqk⟩ := hmem
        exact hfresh q hq p (by simp) (hqk ▸ hk)
      have hstep : convertEntries bk (p :: rest) (some cs) (some cl) =
          convertEntries (bk ++ genEntry cs cl p.2) rest (some cs) (some cl) := by
        unfold convertEntries
        simp only [List.foldl]
        congr 1
        exact convert_step_fresh bk cs cl p.2 hfresh1
      rw [hstep]
      rw [ih (bk ++ genEntry cs cl p.2) ?_ ?_ ?_]
      · simp [List.append_assoc]
      · intro q hq p' hp' hqk
        rcases List.mem_append.mp hq with hqb | hqg
        · exact hfresh q hqb p' (by simp [hp']) hqk
        · have hk1 : q.1 ∈ genKeys p.2 := mem_genEntry_key hqg
          have hne : jsLower p.2.headerText ≠ jsLower p'.2.headerText := by
            rw [hinv p (by simp), hinv p' (by simp [hp'])]
            intro hpp
            have h1 : p.1 ∈ rest.map (·.1) := by
              rw [hpp]
              exact List.mem_map.mpr ⟨p', hp', rfl⟩
            simp only [List.map_cons, List.nodup_cons] at hnodup
            exact hnodup.1 h1
          exact genKeys_disjoint hne q.1 hk1 q.1 hqk rfl
      · exact fun p' hp' => hinv p' (by simp [hp'])
      · simp only [List.map_cons, List.nodup_cons] at hnodup
        exact hnodup.2

lemma insertOpt_perm (o : ColumnOption) (l : List ColumnOption) :
    (insertOpt o l).Perm (o :: l) := by
  induction l with
  | nil => exact List.Perm.refl _
  | cons x xs ih =>
      unfold insertOpt
      split
      · exact List.Perm.refl _
      · exact (ih.cons x).trans (List.Perm.swap o x xs)

lemma sortOptions_perm (l : List ColumnOption) : (sortOptions l).Perm l := by
  induction l with
  | nil => exact List.Perm.refl _
  | cons x xs ih => exact (insertOpt_perm x (sortOptions xs)).trans (ih.cons x)

/-- All catalog pairs a header entry generates carry its header text. -/
lemma genEntry_headerText {cs cl : Nat} {e : HdrEntry} {q : String × ColumnOption}
    (hq : q ∈ genEntry cs cl e) : q.2.headerText = e.headerText := by
  rcases mem_genEntry hq with rfl | rfl | rfl <;> rfl

lemma countP_blocks_zero (cs cl : Nat) (P : ColumnOption → Bool)
    (ml : List (String × HdrEntry))
    (hz : ∀ p ∈ ml, ∀ q ∈ genEntry cs cl p.2, P q.2 = false) :
    (((ml.map (fun p => genEntry cs cl p.2)).flatten.map (·.2)).countP P) = 0 := by
  induction ml with
  | nil => rfl
  | cons p rest ih =>
      simp only [List.map_cons, List.flatten_cons, List.map_append, List.countP_append]
      rw [ih (fun p' hp' => hz p' (by simp [hp']))]
      have : ((genEntry cs cl p.2).map (·.2)).countP P = 0 := by
        rw [List.countP_eq_length_filter]
        rw [show ((genEntry cs cl p.2).map (·.2)).filter P = [] from ?_]
        · rfl
        · rw [List.filter_eq_nil_iff]
          intro o ho
          simp only [List.mem_map] at ho
          obtain ⟨q, hq, hqo⟩ := ho
          simp [← hqo, hz p (by simp) q hq]
      omega

/-- **C1** (amended). For a single-sheet scope on a sheet whose row 1
holds both area markers: a header text collected at some section-range
column and some lecture-range column, *all of whose collected locations
lie at or right of the section marker*, yields exactly two catalog
entries matching it case-insensitively — one section entry and one
lecture entry, keyed `section::`/`lecture::` plus the first-collected
casing of the text — each holding only locations of its own range. -/
theorem c1_area_split_amended (wb : Workbook) (s : String) (ws : Sheet)
    (range : SRange) (cs cl : Nat) (h : String) (e : HdrEntry)
    (opts : List ColumnOption)
    (hs : ¬ (s = ""))
    (hws : wb.ws s = some ws)
    (hrange : getSheetRange ws = some range)
    (hcs : findColByTextInRow ws 1 "attendance section" = some cs)
    (hcl : findColByTextInRow ws 1 "attendance lecture" = some cl)
    (hm : alGet (sheetHeaderMap ws s (range.ec + 1) (some cs) (some cl)) h = some e)
    (hsec : ∃ l ∈ e.locations, cs ≤ l.col1 ∧ l.col1 < cl)
    (hlec : ∃ l ∈ e.locations, cl ≤ l.col1)
    (hall : ∀ l ∈ e.locations, cs ≤ l.col1)
    (hopts : listColumnOptions wb { mode := "single", sheetName := s } = .ok opts) :
    (opts.filter (fun o => decide (jsLower o.headerText = h))).length = 2 ∧
    (opts.filter (fun o =>
      decide (o.kind = ColKind.sec) && decide (jsLower o.headerText = h))).length = 1 ∧
    (opts.filter (fun o =>
      decide (o.kind = ColKind.lec) && decide (jsLower o.headerText = h))).length = 1 ∧
    (secPairOf cs cl e).2 ∈ opts ∧ (lecPairOf cs cl e).2 ∈ opts ∧
    (∀ o ∈ opts, jsLower o.headerText = h →
      o.key = o.kind.str ++ "::" ++ o.headerText ∧
      (o.kind = ColKind.sec →
        ∀ l ∈ o.locations, cs ≤ l.col1 ∧ l.col1 < cl) ∧
      (o.kind = ColKind.lec → ∀ l ∈ o.locations, cl ≤ l.col1) ∧
      o.kind ≠ ColKind.unk) := by
  -- the catalog of the single-sheet scope
  have hM := sheetHeaderMapWith_ok ws s (range.ec + 1) (some cs) (some cl)
    (headerScanRows ws)
  set M := sheetHeaderMap ws s (range.ec + 1) (some cs) (some cl) with hMdef
  have hMok : HdrMapOk M := hM
  have hbounds : detectLectureSectionBounds ws = ⟨some cs, some cl⟩ := by
    unfold detectLectureSectionBounds
    rw [hcs, hcl]
  have hcontrib : sheetContrib wb headerScanRows [] s =
      convertEntries [] M (some cs) (some cl) := by
    unfold sheetContrib
    simp only [hws, hrange, hbounds]
    rfl
  have hcat : opts = sortOptions ((convertEntries [] M (some cs) (some cl)).map (·.2)) := by
    unfold listColumnOptions listColumnOptionsWith scopeSheetNames at hopts
    simp only [if_neg hs, reduceIte] at hopts
    rw [show (if ([s] : List String).isEmpty = true then
        (.error "No sheets selected." : Except String (List ColumnOption))
      else .ok (sortOptions ((([s] : List String).foldl
        (sheetContrib wb headerScanRows) []).map (·.2)))) = .ok (sortOptions
        ((([s] : List String).foldl (sheetContrib wb headerScanRows) []).map (·.2)))
      from by rfl] at hopts
    cases hopts
    simp only [List.foldl]
    rw [hcontrib]
  have hsplit : convertEntries [] M (some cs) (some cl) =
      (M.map (fun p => genEntry cs cl p.2)).flatten := by
    have := convertEntries_single cs cl M [] (by simp) hMok.1 hMok.2
    simpa using this
  -- locate the target entry inside the map
  have hmem : (h, e) ∈ M := alGet_mem hm
  obtain ⟨m1, m2, hMM⟩ := List.append_of_mem hmem
  have hnodup := hMok.2
  rw [hMM] at hnodup
  simp only [List.map_append, List.map_cons] at hnodup
  rw [List.nodup_append] at hnodup
  obtain ⟨hn1, hn2, hdisj⟩ := hnodup
  have hh_m1 : h ∉ m1.map (·.1) := fun hmem1 => hdisj hmem1 (by simp)
  have hh_m2 : h ∉ m2.map (·.1) := by
    rw [List.nodup_cons] at hn2
    exact hn2.1
  have hinvM := hMok.1
  have hle : jsLower e.headerText = h := hinvM (h, e) hmem
  -- the generated block for the target entry
  have hsecne : (sectionLocsOf cs cl e).isEmpty = false := by
    obtain ⟨l, hl, h1, h2⟩ := hsec
    have : l ∈ sectionLocsOf cs cl e := by
      unfold sectionLocsOf
      rw [List.mem_filter]
      exact ⟨hl, by simp [h1, h2]⟩
    cases hemp : (sectionLocsOf cs cl e).isEmpty
    · rfl
    · rw [List.isEmpty_iff] at hemp
      rw [hemp] at this
      cases this
  have hlecne : (lectureLocsOf cs cl e).isEmpty = false := by
    obtain ⟨l, hl, h1⟩ := hlec
    have : l ∈ lectureLocsOf cs cl e := by
      unfold lectureLocsOf
      rw [List.mem_filter]
      refine ⟨hl, ?_⟩
      have : ¬ (l.col1 < cl) := by omega
      simp [h1, this]
    cases hemp : (lectureLocsOf cs cl e).isEmpty
    · rfl
    · rw [List.isEmpty_iff] at hemp
      rw [hemp] at this
      cases this
  have hunke : unknownLocsOf cs cl e = [] := by
    unfold unknownLocsOf
    rw [List.filter_eq_nil_iff]
    intro l hl
    have := hall l hl
    by_cases hlt : l.col1 < cl <;> simp [this, hlt]
  have hgen : genEntry cs cl e = [secPairOf cs cl e, lecPairOf cs cl e] := by
    unfold genEntry
    rw [hsecne, hlecne, hunke]
    rfl
  -- the whole catalog (before sorting) in block form
  have hcatlist : (convertEntries [] M (some cs) (some cl)).map (·.2) =
      ((m1.map (fun p => genEntry cs cl p.2)).flatten.map (·.2)) ++
      ((genEntry cs cl e).map (·.2)) ++
      ((m2.map (fun p => genEntry cs cl p.2)).flatten.map (·.2)) := by
    rw [hsplit, hMM]
    simp [List.map_append, List.flatten_append]
  have hperm : opts.Perm ((convertEntries [] M (some cs) (some cl)).map (·.2)) := by
    rw [hcat]
    exact sortOptions_perm _
  -- a helper: outer blocks never match `h`
  have hz : ∀ (mo : List (String × HdrEntry)), (∀ p ∈ mo, p ∈ M) →
      h ∉ mo.map (·.1) →
      ∀ p ∈ mo, ∀ q ∈ genEntry cs cl p.2, ∀ P : ColumnOption → Bool,
        (∀ o, P o = true → jsLower o.headerText = h) → P q.2 = false := by
    intro mo hsub hnot p hp q hq P hP
    cases hPq : P q.2
    · rfl
    · exfalso
      have h1 : jsLower q.2.headerText = h := hP _ hPq
      rw [genEntry_headerText hq] at h1
      rw [hinvM p (hsub p hp)] at h1
      exact hnot (h1 ▸ List.mem_map.mpr ⟨p, hp, rfl⟩)
  have hsub1 : ∀ p ∈ m1, p ∈ M := by
    intro p hp
    rw [hMM]
    simp [hp]
  have hsub2 : ∀ p ∈ m2, p ∈ M := by
    intro p hp
    rw [hMM]
    simp [hp]
  -- count for an arbitrary predicate recognizing only `h`-entries
  have hcount : ∀ P : ColumnOption → Bool,
      (∀ o, P o = true → jsLower o.headerText = h) →
      opts.countP P = ((genEntry cs cl e).map (·.2)).countP P := by
    intro P hP
    rw [hperm.countP_eq, hcatlist]
    rw [List.countP_append, List.countP_append]
    rw [countP_blocks_zero cs cl P m1 (fun p hp q hq => hz m1 hsub1 hh_m1 p hp q hq P hP)]
    rw [countP_blocks_zero cs cl P m2 (fun p hp q hq => hz m2 hsub2 hh_m2 p hp q hq P hP)]
    omega
  have hmem_opts : ∀ q ∈ genEntry cs cl e, q.2 ∈ opts := by
    intro q hq
    rw [hperm.mem_iff, hcatlist]
    simp only [List.mem_append]
    exact Or.inl (Or.inr (List.mem_map.mpr ⟨q, hq, rfl⟩))
  refine ⟨?_, ?_, ?_, ?_, ?_, ?_⟩
  · rw [← List.countP_eq_length_filter]
    rw [hcount _ (fun o ho => by simpa using ho)]
    rw [hgen]
    simp [List.countP_cons, hle, secPairOf, lecPairOf]
  · rw [← List.countP_eq_length_filter]
    rw [hcount _ (fun o ho => by
      simp only [Bool.and_eq_true, decide_eq_true_eq] at ho
      exact ho.2)]
    rw [hgen]
    simp [List.countP_cons, hle, secPairOf, lecPairOf]
  · rw [← List.countP_eq_length_filter]
    rw [hcount _ (fun o ho => by
      simp only [Bool.and_eq_true, decide_eq_true_eq] at ho
      exact ho.2)]
    rw [hgen]
    simp [List.countP_cons, hle, secPairOf, lecPairOf]
  · exact hmem_opts _ (by rw [hgen]; simp)
  · exact hmem_opts _ (by rw [hgen]; simp)
  · intro o ho hlo
    have ho' : o ∈ (convertEntries [] M (some cs) (some cl)).map (·.2) :=
      hperm.mem_iff.mp ho
    rw [hcatlist] at ho'
    simp only [List.mem_append] at ho'
    have hoe : o ∈ (genEntry cs cl e).map (·.2) := by
      rcases ho' with (ho1 | ho1) | ho1
      · exfalso
        simp only [List.mem_map] at ho1
        obtain ⟨q, hq, hqo⟩ := ho1
        simp only [List.mem_flatten] at hq
        obtain ⟨blk, hblk, hqblk⟩ := hq
        simp only [List.mem_map] at hblk
        obtain ⟨p, hp, hpblk⟩ := hblk
        have := genEntry_headerText (hpblk ▸ hqblk)
        rw [← hqo, this, hinvM p (hsub1 p hp)] at hlo
        exact hh_m1 (hlo ▸ List.mem_map.mpr ⟨p, hp, rfl⟩)
      · exact ho1
      · exfalso
        simp only [List.mem_map] at ho1
        obtain ⟨q, hq, hqo⟩ := ho1
        simp only [List.mem_flatten] at hq
        obtain ⟨blk, hblk, hqblk⟩ := hq
        simp only [List.mem_map] at hblk
        obtain ⟨p, hp, hpblk⟩ := hblk
        have := genEntry_headerText (hpblk ▸ hqblk)
        rw [← hqo, this, hinvM p (hsub2 p hp)] at hlo
        exact hh_m2 (hlo ▸ List.mem_map.mpr ⟨p, hp, rfl⟩)
    rw [hgen] at hoe
    simp only [List.map_cons, List.map_nil, List.mem_cons, List.not_mem_nil,
      or_false] at hoe
    rcases hoe with rfl | rfl
    · refine ⟨rfl, ?_, ?_, ?_⟩
      · intro _ l hl
        unfold secPairOf sectionLocsOf at hl
        simp only at hl
        rw [List.mem_filter] at hl
        have := hl.2
        simp only [Bool.and_eq_true, decide_eq_true_eq] at this
        exact this
      · intro hk
        cases hk
      · intro hk
        cases hk
    · refine ⟨rfl, ?_, ?_, ?_⟩
      · intro hk
        cases hk
      · intro _ l hl
        unfold lecPairOf lectureLocsOf at hl
        simp only at hl
        rw [List.mem_filter] at hl
        have := hl.2
        simp only [Bool.and_eq_true, decide_eq_true_eq] at this
        exact this.2
      · intro hk
        cases hk

/-- **C1** (counterexample). On `c1xwb`, `"W1"` is collected at a
section-range column and a lecture-range column, yet the catalog holds
*three* entries for it — `section::W1`, `lecture::W1` and `unknown::W1`
(the row-1 occurrence left of the section marker) — not exactly two. -/
theorem c1_counterexample :
    findColByTextInRow c1xsheet 1 "attendance section" = some 2 ∧
    findColByTextInRow c1xsheet 1 "attendance lecture" = some 4 ∧
    alGet (sheetHeaderMap c1xsheet "S" 5 (some 2) (some 4)) "w1" =
      some ⟨"W1", .sec, [⟨"S", 1, 1⟩, ⟨"S", 2, 3⟩, ⟨"S", 2, 5⟩]⟩ ∧
    ((2 : Nat) ≤ 3 ∧ (3 : Nat) < 4) ∧ ((4 : Nat) ≤ 5) ∧
    (listColumnOptions c1xwb { mode := "single", sheetName := "S" }).toOption.map
      (fun l => (l.filter (fun o => decide (jsLower o.headerText = "w1"))).length) =
      some 3 :=
  ⟨rfl, rfl, rfl, by decide, by decide, rfl⟩

/-- Witness for `c1_area_split_amended` on the spec's scenario 2:
exactly two catalog entries match `"w1"`. -/
theorem c1_area_split_amended_witness :
    (c1wopts.filter (fun o => decide (jsLower o.headerText = "w1"))).length = 2 :=
  (c1_area_split_amended c1wwb "S" c1wsheet ⟨0, 0, 1, 4⟩ 2 4 "w1"
    ⟨"W1", .sec, [⟨"S", 2, 3⟩, ⟨"S", 2, 5⟩]⟩ c1wopts
    (by decide) rfl rfl rfl rfl rfl
    ⟨⟨"S", 2, 3⟩, by decide, by decide⟩
    ⟨⟨"S", 2, 5⟩, by decide, by decide⟩
    (by decide)
    rfl).1

lemma previewLoopSt_fold (idxMap : List (String × StudentIndex)) (locs : List Loc)
    (task : String) (l : List (Nat × (String × Option String))) (w : Workbook)
    (acc : List PreviewRow) :
    l.foldl (previewLoopSt idxMap locs task) (w, acc) =
      (w, acc ++ l.map (fun p => mkPreviewRow w idxMap locs task (p.1 + 1) p.2)) := by
  induction l generalizing acc with
  | nil => simp
  | cons a as ih =>
      rw [List.foldl_cons]
      have hstep : previewLoopSt idxMap locs task (w, acc) a =
          (w, acc ++ [mkPreviewRow w idxMap locs task (a.1 + 1) a.2]) := rfl
      rw [hstep, ih]
      simp

/-- C8: the Preview Engine writes nothing — for every workbook, scope,
column key, task kind and input list, the state-threaded transcription
of `computeEditorPreview` returns the workbook exactly as it was given
(every cell of every sheet unchanged), and its result is the pure
`computeEditorPreview`. -/
theorem c8_preview_writes_nothing (wb : Workbook) (scope : Scope)
    (columnKey : String) (taskType : String) (orderedAttendanceIds : List String)
    (attendanceIdsSet : Option (List String))
    (gradesRows : Option (List (String × String))) :
    (computeEditorPreviewSt wb scope columnKey taskType orderedAttendanceIds
        attendanceIdsSet gradesRows).2 = wb ∧
    (computeEditorPreviewSt wb scope columnKey taskType orderedAttendanceIds
        attendanceIdsSet gradesRows).1 =
      computeEditorPreview wb scope columnKey taskType orderedAttendanceIds
        attendanceIdsSet gradesRows := by
  have key : computeEditorPreviewSt wb scope columnKey taskType orderedAttendanceIds
      attendanceIdsSet gradesRows =
      (computeEditorPreview wb scope columnKey taskType orderedAttendanceIds
        attendanceIdsSet gradesRows, wb) := by
    unfold computeEditorPreviewSt computeEditorPreview
    cases listColumnOptions wb scope with
    | error e => rfl
    | ok opts =>
        dsimp only
        cases selectedOf opts columnKey with
        | none => rfl
        | some sel =>
            dsimp only
            by_cases htask : jsLower taskType ≠ "attendance" ∧ jsLower taskType ≠ "grade"
            · rw [if_pos htask, if_pos htask]
            · rw [if_neg htask, if_neg htask]
              rw [previewLoopSt_fold]
              dsimp only
              rw [List.nil_append]
  exact ⟨by rw [key], by rw [key]⟩

lemma alUpdate_get {κ : Type} [DecidableEq κ] {ν : Type} (m : List (κ × ν))
    (k k' : κ) (f : ν → ν) :
    alGet (alUpdate m k f) k' = if k = k' then (alGet m k').map f else alGet m k' := by
  induction m with
  | nil => by_cases h : k = k' <;> simp [alUpdate, alGet, h]
  | cons p rest ih =>
      obtain ⟨a, b⟩ := p
      by_cases hak : a = k
      · subst hak
        simp only [alUpdate, if_pos rfl]
        by_cases hk' : a = k'
        · subst hk'
          simp [alGet_cons]
        · simp [alGet_cons, hk', ih]
      · simp only [alUpdate, if_neg hak]
        by_cases hk' : a = k'
        · subst hk'
          have hka : ¬ k = a := fun h => hak h.symm
          simp [alGet_cons, hka]
        · simp [alGet_cons, hk', ih]

lemma wbSetCell_ws (wb : Workbook) (s0 : String) (a0 : Addr) (c : Cell) (s : String) :
    (wbSetCell wb s0 a0 c).ws s =
      if s0 = s then (wb.ws s).map (fun ws => sheetSetCell ws a0 c) else wb.ws s := by
  show alGet (alUpdate wb.sheets s0 (fun ws => sheetSetCell ws a0 c)) s = _
  rw [alUpdate_get]
  rfl

/-- `applyRow` either leaves the workbook untouched or performs the one
guarded write. -/
lemma applyRow_cases (hl : Bool) (rgb : Option String) (wb : Workbook)
    (r : PreviewRow) :
    applyRow hl rgb wb r = wb ∨
    ∃ addr ws, r.match_status ≠ "notFound" ∧ r.cell = some addr ∧ r.sheet ≠ "" ∧
      wb.ws r.sheet = some ws ∧
      applyRow hl rgb wb r = wbSetCell wb r.sheet addr (writtenCell hl rgb r.new_value) := by
  unfold applyRow
  by_cases hs : r.match_status = "notFound"
  · left
    rw [if_pos hs]
  · rw [if_neg hs]
    cases hc : r.cell with
    | none => left; rfl
    | some addr =>
        dsimp only
        by_cases hsh : r.sheet = ""
        · left
          rw [if_pos hsh]
        · rw [if_neg hsh]
          cases hws : wb.ws r.sheet with
          | none => left; rfl
          | some ws =>
              right
              exact ⟨addr, ws, hs, rfl, hsh, rfl, rfl⟩

lemma applyRow_sheetNames (hl : Bool) (rgb : Option String) (wb : Workbook)
    (r : PreviewRow) : (applyRow hl rgb wb r).sheetNames = wb.sheetNames := by
  rcases applyRow_cases hl rgb wb r with h | ⟨addr, ws, _, _, _, _, h⟩ <;> rw [h]
  rfl

lemma applyRow_ws_isSome (hl : Bool) (rgb : Option String) (wb : Workbook)
    (r : PreviewRow) (s : String) :
    ((applyRow hl rgb wb r).ws s).isSome = (wb.ws s).isSome := by
  rcases applyRow_cases hl rgb wb r with h | ⟨addr, ws, _, _, _, _, h⟩ <;> rw [h]
  rw [wbSetCell_ws]
  by_cases hsh : r.sheet = s
  · rw [if_pos hsh]
    cases wb.ws s <;> rfl
  · rw [if_neg hsh]

/-- A row failing any of the loop's guards (judged against any workbook
with the same sheet-existence profile) is a no-op. -/
lemma applyRow_skip_of_not_kept (hl : Bool) (rgb : Option String)
    (wb0 wb : Workbook) (r : PreviewRow)
    (hinv : ∀ s, (wb.ws s).isSome = (wb0.ws s).isSome)
    (hk : ¬ applierKept wb0 r = true) : applyRow hl rgb wb r = wb := by
  rcases applyRow_cases hl rgb wb r with h | ⟨addr, ws, hs, hc, hsh, hws, h⟩
  · exact h
  · exfalso
    apply hk
    unfold applierKept
    have h4 : (wb0.ws r.sheet).isSome = true := by
      rw [← hinv, hws]
      rfl
    rw [h4, hc]
    simp [hs, hsh]

lemma applyRow_cellRecord_frame (hl : Bool) (rgb : Option String) (wb : Workbook)
    (r : PreviewRow) (s : String) (a : Addr)
    (hne : ¬(r.sheet = s ∧ r.cell = some a)) :
    cellRecordAt (applyRow hl rgb wb r) s a = cellRecordAt wb s a := by
  rcases applyRow_cases hl rgb wb r with h | ⟨addr, ws, hs, hc, hsh, hws, h⟩ <;> rw [h]
  unfold cellRecordAt
  rw [wbSetCell_ws]
  by_cases hsh2 : r.sheet = s
  · rw [if_pos hsh2]
    cases hwss : wb.ws s with
    | none => rfl
    | some ws' =>
        have hne2 : ¬ addr = a := by
          intro he
          exact hne ⟨hsh2, by rw [hc, he]⟩
        simp only [Option.map_some', Option.some_bind]
        show alGet (alSet ws'.cells addr (writtenCell hl rgb r.new_value)) a = _
        rw [alGet_alSet, if_neg hne2]
  · rw [if_neg hsh2]

lemma applyRow_cellRecord_write (hl : Bool) (rgb : Option String) (wb : Workbook)
    (r : PreviewRow) (addr : Addr) (ws : Sheet)
    (hs : r.match_status ≠ "notFound") (hc : r.cell = some addr)
    (hsh : r.sheet ≠ "") (hws : wb.ws r.sheet = some ws) :
    cellRecordAt (applyRow hl rgb wb r) r.sheet addr =
      some (writtenCell hl rgb r.new_value) := by
  have happ : applyRow hl rgb wb r =
      wbSetCell wb r.sheet addr (writtenCell hl rgb r.new_value) := by
    unfold applyRow
    rw [if_neg hs, hc]
    dsimp only
    rw [if_neg hsh, hws]
    rfl
  rw [happ]
  unfold cellRecordAt
  rw [wbSetCell_ws, if_pos rfl, hws]
  simp only [Option.map_some', Option.some_bind]
  show alGet (alSet ws.cells addr (writtenCell hl rgb r.new_value)) addr = _
  rw [alGet_alSet, if_pos rfl]

lemma applyEdits_fold_sheetNames (hl : Bool) (rgb : Option String) :
    ∀ (rows : List PreviewRow) (wb : Workbook),
      (rows.foldl (applyRow hl rgb) wb).sheetNames = wb.sheetNames := by
  intro rows
  induction rows with
  | nil => intro wb; rfl
  | cons x rest ih =>
      intro wb
      rw [List.foldl_cons, ih, applyRow_sheetNames]

lemma applyEdits_fold_ws_isSome (hl : Bool) (rgb : Option String) :
    ∀ (rows : List PreviewRow) (wb : Workbook) (s : String),
      ((rows.foldl (applyRow hl rgb) wb).ws s).isSome = (wb.ws s).isSome := by
  intro rows
  induction rows with
  | nil => intro wb s; rfl
  | cons x rest ih =>
      intro wb s
      rw [List.foldl_cons, ih, applyRow_ws_isSome]

/-- Rows failing the loop's guards contribute nothing: the fold equals
the fold over the kept rows only. -/
lemma applyEdits_fold_filter (hl : Bool) (rgb : Option String) (wb0 : Workbook) :
    ∀ (rows : List PreviewRow) (wb : Workbook),
      (∀ s, (wb.ws s).isSome = (wb0.ws s).isSome) →
      rows.foldl (applyRow hl rgb) wb =
        (rows.filter (applierKept wb0)).foldl (applyRow hl rgb) wb := by
  intro rows
  induction rows with
  | nil => intro wb _; rfl
  | cons x rest ih =>
      intro wb hinv
      rw [List.foldl_cons]
      by_cases hk : applierKept wb0 x = true
      · rw [List.filter_cons_of_pos hk, List.foldl_cons]
        exact ih (applyRow hl rgb wb x)
          (fun s => by rw [applyRow_ws_isSome, hinv])
      · rw [List.filter_cons_of_neg hk,
          applyRow_skip_of_not_kept hl rgb wb0 wb x hinv hk]
        exact ih wb hinv

/-- Frame: a cell targeted by no kept row is untouched by the fold. -/
lemma applyEdits_fold_frame (hl : Bool) (rgb : Option String) (wb0 : Workbook)
    (s : String) (a : Addr) :
    ∀ (rows : List PreviewRow) (wb : Workbook),
      (∀ s', (wb.ws s').isSome = (wb0.ws s').isSome) →
      (∀ r ∈ rows, applierKept wb0 r = true → ¬(r.sheet = s ∧ r.cell = some a)) →
      cellRecordAt (rows.foldl (applyRow hl rgb) wb) s a = cellRecordAt wb s a := by
  intro rows
  induction rows with
  | nil => intro wb _ _; rfl
  | cons x rest ih =>
      intro wb hinv hnt
      rw [List.foldl_cons]
      have hrest := ih (applyRow hl rgb wb x)
        (fun s' => by rw [applyRow_ws_isSome, hinv])
        (fun r hr hk => hnt r (List.mem_cons_of_mem x hr) hk)
      rw [hrest]
      by_cases hk : applierKept wb0 x = true
      · exact applyRow_cellRecord_frame hl rgb wb x s a
          (hnt x (List.mem_cons_self x rest) hk)
      · rw [applyRow_skip_of_not_kept hl rgb wb0 wb x hinv hk]

/-- Write persistence: under pairwise-distinct targets among kept rows,
each kept row's cell holds exactly the record the applier stored. -/
lemma applyEdits_fold_write (hl : Bool) (rgb : Option String) (wb0 : Workbook) :
    ∀ (rows : List PreviewRow) (wb : Workbook),
      (∀ s, (wb.ws s).isSome = (wb0.ws s).isSome) →
      List.Pairwise (fun r1 r2 => applierKept wb0 r1 = true →
        applierKept wb0 r2 = true → ¬(r1.sheet = r2.sheet ∧ r1.cell = r2.cell)) rows →
      ∀ r ∈ rows, applierKept wb0 r = true → ∀ a, r.cell = some a →
        cellRecordAt (rows.foldl (applyRow hl rgb) wb) r.sheet a =
          some (writtenCell hl rgb r.new_value) := by
  intro rows
  induction rows with
  | nil => intro wb _ _ r hr; cases hr
  | cons x rest ih =>
      intro wb hinv hpw r hr hk a hca
      have hinv' : ∀ s, ((applyRow hl rgb wb x).ws s).isSome = (wb0.ws s).isSome :=
        fun s => by rw [applyRow_ws_isSome, hinv]
      rw [List.foldl_cons]
      rcases List.mem_cons.mp hr with rfl | hr'
      · have hkept := hk
        unfold applierKept at hkept
        simp only [Bool.and_eq_true, decide_eq_true_eq, Option.isSome_iff_exists] at hkept
        obtain ⟨⟨⟨hs, hsh⟩, -⟩, ws, hws0⟩ := hkept
        have hws : ∃ ws', wb.ws r.sheet = some ws' := by
          rw [← Option.isSome_iff_exists, hinv, hws0]
          rfl
        obtain ⟨ws', hws'⟩ := hws
        have hwrite := applyRow_cellRecord_write hl rgb wb r a ws' hs hca hsh hws'
        have hframe := applyEdits_fold_frame hl rgb wb0 r.sheet a rest
          (applyRow hl rgb wb r) hinv'
          (fun rr hrr hkrr => by
            intro hcl
            have hni := (List.pairwise_cons.mp hpw).1 rr hrr hk hkrr
            exact hni ⟨hcl.1.symm, by rw [hca, hcl.2]⟩)
        rw [hframe, hwrite]
      · exact ih (applyRow hl rgb wb x) hinv'
          (List.pairwise_cons.mp hpw).2 r hr' hk a hca

/-- C10: `applyEditorEdits` never raises (it is a total function on the
workbook model): it leaves the workbook's sheet list unchanged, it
equals itself run on only the rows passing the loop's guards — so a row
with matchStatus `notFound`, an empty sheet name, an empty cell address
or a named sheet absent from the workbook is silently skipped — and it
leaves every cell not addressed by a kept row's `(sheet, cell)` pair
exactly as it was. -/
theorem c10_applier_frame_and_tolerance (wb : Workbook) (rows : List PreviewRow)
    (hl : Bool) (hc : String) :
    (applyEditorEdits wb rows hl hc).sheetNames = wb.sheetNames ∧
    applyEditorEdits wb rows hl hc =
      applyEditorEdits wb (rows.filter (applierKept wb)) hl hc ∧
    ∀ s a, (∀ r ∈ rows, applierKept wb r = true → ¬(r.sheet = s ∧ r.cell = some a)) →
      cellRecordAt (applyEditorEdits wb rows hl hc) s a = cellRecordAt wb s a := by
  refine ⟨applyEdits_fold_sheetNames _ _ rows wb, ?_, ?_⟩
  · exact applyEdits_fold_filter hl (rgbColorOf hl hc) wb rows wb (fun s => rfl)
  · intro s a hnt
    exact applyEdits_fold_frame hl (rgbColorOf hl hc) wb s a rows wb
      (fun s' => rfl) hnt

/-- Witness for `c10_applier_frame_and_tolerance`: on a concrete batch
holding one notFound row, one missing-sheet row, one empty-cell row and
one kept row, a cell not targeted by the kept row is untouched. -/
theorem c10_applier_frame_and_tolerance_witness :
    cellRecordAt (applyEditorEdits c10wb c10rows false "#FFFF00") "S" ⟨2, 1⟩ =
      cellRecordAt c10wb "S" ⟨2, 1⟩ :=
  (c10_applier_frame_and_tolerance c10wb c10rows false "#FFFF00").2.2 "S" ⟨2, 1⟩
    (by decide)

/-- C2: on rows coming from the preview engine — every non-discarded,
non-notFound row carries a non-empty sheet name that exists in the
workbook and a cell address — and with pairwise distinct targets among
kept rows, the applier invoked from the editor's handler (discarded
rows filtered at the call site) skips exactly the discarded-or-notFound
rows, writes each remaining row's `new_value` to its target cell tagged
`n`/`b`/`s` by the value's runtime type, and writes no other cell. -/
theorem c2_applier_skip_and_write (wb : Workbook) (rows : List PreviewRow)
    (hl : Bool) (hc : String)
    (hwf : ∀ r ∈ rows, r.discarded = false → r.match_status ≠ "notFound" →
      r.sheet ≠ "" ∧ r.cell.isSome = true ∧ (wb.ws r.sheet).isSome = true)
    (hpw : List.Pairwise (fun r1 r2 => applierKept wb r1 = true →
      applierKept wb r2 = true → ¬(r1.sheet = r2.sheet ∧ r1.cell = r2.cell)) rows) :
    applyEditorBatch wb rows hl hc =
      applyEditorEdits wb
        (rows.filter (fun r => !r.discarded && decide (r.match_status ≠ "notFound")))
        hl hc ∧
    (∀ r ∈ rows, r.discarded = false → r.match_status ≠ "notFound" →
      ∀ a, r.cell = some a →
      cellRecordAt (applyEditorBatch wb rows hl hc) r.sheet a =
        some (writtenCell hl (rgbColorOf hl hc) r.new_value)) ∧
    (∀ s a,
      (∀ r ∈ rows, r.discarded = false → r.match_status ≠ "notFound" →
        ¬(r.sheet = s ∧ r.cell = some a)) →
      cellRecordAt (applyEditorBatch wb rows hl hc) s a = cellRecordAt wb s a) := by
  refine ⟨?_, ?_, ?_⟩
  · show (rows.filter (fun r => !r.discarded)).foldl _ wb = _
    rw [applyEdits_fold_filter hl (rgbColorOf hl hc) wb
      (rows.filter (fun r => !r.discarded)) wb (fun s => rfl)]
    show _ = (rows.filter _).foldl _ wb
    rw [List.filter_filter]
    congr 1
    apply List.filter_congr
    intro r hr
    cases hd : r.discarded
    · by_cases hm : r.match_status = "notFound"
      · have : applierKept wb r = false := by
          unfold applierKept
          simp [hm]
        simp [this, hm, hd]
      · obtain ⟨h1, h2, h3⟩ := hwf r hr hd hm
        have : applierKept wb r = true := by
          unfold applierKept
          simp only [Bool.and_eq_true, decide_eq_true_eq]
          exact ⟨⟨⟨hm, h1⟩, h2⟩, h3⟩
        simp [this, hm, hd]
    · simp [hd]
  · intro r hr hd hm a hca
    obtain ⟨h1, h2, h3⟩ := hwf r hr hd hm
    have hk : applierKept wb r = true := by
      unfold applierKept
      simp only [Bool.and_eq_true, decide_eq_true_eq]
      exact ⟨⟨⟨hm, h1⟩, h2⟩, h3⟩
    have hr' : r ∈ rows.filter (fun r => !r.discarded) := by
      rw [List.mem_filter]
      exact ⟨hr, by rw [hd]; rfl⟩
    exact applyEdits_fold_write hl (rgbColorOf hl hc) wb
      (rows.filter (fun r => !r.discarded)) wb (fun s => rfl)
      (List.Pairwise.filter _ hpw) r hr' hk a hca
  · intro s a hnt
    refine applyEdits_fold_frame hl (rgbColorOf hl hc) wb s a
      (rows.filter (fun r => !r.discarded)) wb (fun s' => rfl) ?_
    intro r hr hk
    rw [List.mem_filter] at hr
    have hd : r.discarded = false := by
      cases h : r.discarded
      · rfl
      · rw [h] at hr
        cases hr.2
    have hm : r.match_status ≠ "notFound" := by
      unfold applierKept at hk
      simp only [Bool.and_eq_true, decide_eq_true_eq] at hk
      exact hk.1.1.1
    exact hnt r hr.1 hd hm

/-- Witness for `c2_applier_skip_and_write`: on a concrete batch the
kept row's target cell receives the numeric-tagged record while the
discarded row's target cell stays untouched. -/
theorem c2_applier_skip_and_write_witness :
    cellRecordAt (applyEditorBatch c2wb c2rows false "#FFFF00") "S" ⟨2, 3⟩ =
        some (writtenCell false (rgbColorOf false "#FFFF00") (.num 1)) ∧
    cellRecordAt (applyEditorBatch c2wb c2rows false "#FFFF00") "S" ⟨3, 3⟩ =
        cellRecordAt c2wb "S" ⟨3, 3⟩ :=
  ⟨(c2_applier_skip_and_write c2wb c2rows false "#FFFF00" (by decide)
      (by decide)).2.1
    { index := 1, input_id := "123456", sheet := "S", row_index1 := some 2,
      student_id := "123456", student_name := "A", cell := some ⟨2, 3⟩,
      col_letter := "C", old_value := .num 0, new_value := .num 1,
      match_status := "matched", note := "" }
    (by decide) rfl (by decide) ⟨2, 3⟩ rfl,
   (c2_applier_skip_and_write c2wb c2rows false "#FFFF00" (by decide)
      (by decide)).2.2 "S" ⟨3, 3⟩ (by decide)⟩

lemma findSome?_some_spec {α β : Type} (f : α → Option β) :
    ∀ (l : List α) (b : β), l.findSome? f = some b → ∃ a ∈ l, f a = some b := by
  intro l
  induction l with
  | nil => intro b h; cases h
  | cons a rest ih =>
      intro b h
      simp only [List.findSome?] at h
      cases hfa : f a with
      | some c =>
          rw [hfa] at h
          have h' : some c = some b := h
          exact ⟨a, by simp, by rw [hfa]; exact h'⟩
      | none =>
          rw [hfa] at h
          have h' : List.findSome? f rest = some b := h
          obtain ⟨x, hx, hfx⟩ := ih b h'
          exact ⟨x, by simp [hx], hfx⟩

/-- The source's break-on-1-or-more loop visits exactly the first
location with a nonempty hit list. -/
lemma findMatch_eq_specFirstHit (idxMap : List (String × StudentIndex))
    (locs : List Loc) (sid : String) :
    findMatch idxMap locs sid = specFirstHit idxMap locs sid := by
  induction locs with
  | nil => rfl
  | cons loc rest ih =>
      unfold findMatch specFirstHit
      simp only [List.findSome?]
      cases hh : hitsFor idxMap loc sid with
      | nil =>
          simp only [List.length_nil, List.isEmpty_nil]
          rw [ih]
          rfl
      | cons a as =>
          cases as with
          | nil => rfl
          | cons b bs =>
              simp only [List.length_cons, List.isEmpty_cons]
              rw [if_neg (by omega), if_pos (by omega)]
              rfl

/-- **C3** (confirmed). Every preview row is produced by the per-item
rule, and the per-item rule realizes the claim: if the first visited
sheet with at least one index row for the id has exactly one, the row
is `matched`; if more than one, it is `ambiguous` (never `matched`),
provisionally uses the first hit row and carries a verify note; if no
visited sheet has a row for the id, the row is `notFound` with empty
sheet, null row, empty cell, empty old value, and the task's desired
value still recorded. -/
theorem c3_preview_match_statuses (wb : Workbook) (scope : Scope)
    (columnKey taskType : String) (oids : List String)
    (aset : Option (List String)) (grows : Option (List (String × String)))
    (out : EditorPreview)
    (h : computeEditorPreview wb scope columnKey taskType oids aset grows = .ok out) :
    (out.preview_rows = (orderedInputOf (jsLower taskType) oids aset grows).enum.map
      (fun p => mkPreviewRow wb
        (idxMapOf wb scope (targetIdsForDetection aset (jsLower taskType) grows))
        out.selected_column.locations (jsLower taskType) (p.1 + 1) p.2)) ∧
    (∀ (idxMap : List (String × StudentIndex)) (locs : List Loc) (task : String)
        (i : Nat) (item : String × Option String),
      match specFirstHit idxMap locs (jsTrim item.1) with
      | none =>
          mkPreviewRow wb idxMap locs task i item =
            mkNotFoundRow i (jsTrim item.1)
              (if task = "attendance" then .num 1 else .str (item.2.getD "null"))
      | some (_, hits) =>
          ((mkPreviewRow wb idxMap locs task i item).match_status =
            if hits.length = 1 then "matched" else "ambiguous") ∧
          (hits.length > 1 →
            (mkPreviewRow wb idxMap locs task i item).match_status ≠ "matched" ∧
            (mkPreviewRow wb idxMap locs task i item).row_index1 =
              some (hits.headD ⟨0, "", ""⟩).row1 ∧
            (mkPreviewRow wb idxMap locs task i item).note ≠ "")) := by
  constructor
  · unfold computeEditorPreview at h
    cases hopts : listColumnOptions wb scope with
    | error e => rw [hopts] at h; cases h
    | ok opts =>
        rw [hopts] at h
        simp only at h
        cases hsel : selectedOf opts columnKey with
        | none => rw [hsel] at h; cases h
        | some sel =>
            rw [hsel] at h
            simp only at h
            split at h
            · cases h
            · cases h
              rfl
  · intro idxMap locs task i item
    cases hfh : specFirstHit idxMap locs (jsTrim item.1) with
    | none =>
        simp only
        unfold mkPreviewRow
        dsimp only
        rw [findMatch_eq_specFirstHit, hfh]
    | some p =>
        obtain ⟨loc, hits⟩ := p
        have hrow : mkPreviewRow wb idxMap locs task i item =
            (let sid := jsTrim item.1
             let desired : CellVal :=
               if task = "attendance" then .num 1 else .str (item.2.getD "null")
             let m := hits.headD ⟨0, "", ""⟩
             let ambiguous := hits.length > 1
             let addr : Addr := ⟨m.row1, loc.col1⟩
             { index := i, input_id := sid, sheet := loc.sheet,
               row_index1 := some m.row1, student_id := sid, student_name := m.name,
               cell := some addr, col_letter := encodeCol (loc.col1 - 1),
               old_value := getCellDisplay (wb.ws loc.sheet) addr,
               new_value := desired,
               match_status := if ambiguous then "ambiguous" else "matched",
               note := if ambiguous then
                 "Duplicate ID detected in sheet; please verify match." else "" }) := by
          unfold mkPreviewRow
          dsimp only
          rw [findMatch_eq_specFirstHit, hfh]
        have hne : hits ≠ [] := by
          unfold specFirstHit at hfh
          obtain ⟨loc', _, hf⟩ := findSome?_some_spec _ _ _ hfh
          simp only at hf
          split at hf
          · cases hf
          · rename_i hemp
            cases hf
            intro hnil
            rw [List.isEmpty_iff] at hemp
            exact hemp hnil
        have hlen1 : 1 ≤ hits.length := by
          cases hits with
          | nil => exact absurd rfl hne
          | cons a as => simp
        simp only
        rw [hrow]
        refine ⟨?_, ?_⟩
        · simp only
          by_cases hamb : hits.length > 1
          · rw [if_pos hamb, if_neg (by omega)]
          · have h1 : hits.length = 1 := by omega
            rw [if_neg hamb, if_pos h1]
        · intro hamb
          simp only
          rw [if_pos hamb, if_pos hamb]
          refine ⟨by decide, ?_, by decide⟩
          trivial

/-- Witness for `c3_preview_match_statuses` on a concrete two-id run
(one matched, one notFound). -/
theorem c3_preview_match_statuses_witness :
    c3out.preview_rows =
      (orderedInputOf (jsLower "attendance") ["123456", "999999"]
        (some ["123456", "999999"]) none).enum.map
        (fun p => mkPreviewRow c3wb
          (idxMapOf c3wb { mode := "single", sheetName := "S1" }
            (targetIdsForDetection (some ["123456", "999999"])
              (jsLower "attendance") none))
          c3out.selected_column.locations (jsLower "attendance") (p.1 + 1) p.2) :=
  (c3_preview_match_statuses c3wb { mode := "single", sheetName := "S1" }
    "unknown::W1" "attendance" ["123456", "999999"] (some ["123456", "999999"])
    none c3out rfl).1

/-! ### C7: the apply-then-re-preview round trip -/

lemma scopeSheetNames_congr (wb' wb : Workbook) (scope : Scope)
    (h : wb'.sheetNames = wb.sheetNames) :
    scopeSheetNames wb' scope = scopeSheetNames wb scope := by
  unfold scopeSheetNames
  rw [h]

lemma idx_fold_keys (wb : Workbook) (tgt : Option (List String)) (sn : String) :
    ∀ (ns : List String) (m : List (String × StudentIndex)),
      (alGet (ns.foldl (fun m sn' =>
        match wb.ws sn' with
        | none => m
        | some ws => alSet m sn' (buildStudentIndexForSheet ws tgt)) m) sn).isSome = true →
      (alGet m sn).isSome = true ∨ (sn ∈ ns ∧ (wb.ws sn).isSome = true) := by
  intro ns
  induction ns with
  | nil => intro m h; exact Or.inl h
  | cons x xs ih =>
      intro m h
      rw [List.foldl_cons] at h
      rcases ih _ h with h' | ⟨hmem, hws⟩
      · cases hx : wb.ws x with
        | none =>
            rw [hx] at h'
            exact Or.inl h'
        | some ws =>
            rw [hx] at h'
            dsimp only at h'
            rw [alGet_alSet] at h'
            by_cases hxs : x = sn
            · right
              refine ⟨hxs ▸ List.mem_cons_self x xs, ?_⟩
              rw [← hxs, hx]
              rfl
            · rw [if_neg hxs] at h'
              exact Or.inl h'
      · exact Or.inr ⟨List.mem_cons_of_mem x hmem, hws⟩

/-- A sheet holding an entry of the built index map is a scope sheet
that exists in the workbook. -/
lemma idxMapOf_keys (wb : Workbook) (scope : Scope) (tgt : Option (List String))
    (sn : String) (h : (alGet (idxMapOf wb scope tgt) sn).isSome = true) :
    sn ∈ scopeSheetNames wb scope ∧ (wb.ws sn).isSome = true := by
  unfold idxMapOf at h
  rcases idx_fold_keys wb tgt sn (scopeSheetNames wb scope) [] h with h' | h2
  · exact Bool.noConfusion h'
  · exact h2

/-- The index map only depends on the scope's sheet list and the
per-scope-sheet built indexes. -/
lemma idxMapOf_congr (wb' wb : Workbook) (scope : Scope) (tgt : Option (List String))
    (hnames : scopeSheetNames wb' scope = scopeSheetNames wb scope)
    (hidx : ∀ sn ∈ scopeSheetNames wb scope,
      (wb'.ws sn).map (fun ws => buildStudentIndexForSheet ws tgt) =
        (wb.ws sn).map (fun ws => buildStudentIndexForSheet ws tgt)) :
    idxMapOf wb' scope tgt = idxMapOf wb scope tgt := by
  unfold idxMapOf
  rw [hnames]
  have key : ∀ (ns : List String), (∀ sn ∈ ns,
      (wb'.ws sn).map (fun ws => buildStudentIndexForSheet ws tgt) =
        (wb.ws sn).map (fun ws => buildStudentIndexForSheet ws tgt)) →
      ∀ (m : List (String × StudentIndex)),
      ns.foldl (fun m sn =>
        match wb'.ws sn with
        | none => m
        | some ws => alSet m sn (buildStudentIndexForSheet ws tgt)) m =
      ns.foldl (fun m sn =>
        match wb.ws sn with
        | none => m
        | some ws => alSet m sn (buildStudentIndexForSheet ws tgt)) m := by
    intro ns
    induction ns with
    | nil => intro _ m; rfl
    | cons x xs ih =>
        intro hx m
        rw [List.foldl_cons, List.foldl_cons]
        have hstep : (match wb'.ws x with
            | none => m
            | some ws => alSet m x (buildStudentIndexForSheet ws tgt)) =
            (match wb.ws x with
            | none => m
            | some ws => alSet m x (buildStudentIndexForSheet ws tgt)) := by
          have h := hx x (List.mem_cons_self x xs)
          cases h1 : wb'.ws x with
          | none =>
              cases h2 : wb.ws x with
              | none => rfl
              | some w => rw [h1, h2] at h; cases h
          | some w' =>
              cases h2 : wb.ws x with
              | none => rw [h1, h2] at h; cases h
              | some w =>
                  rw [h1, h2] at h
                  simp only [Option.map_some'] at h
                  rw [Option.some_inj] at h
                  dsimp only
                  rw [h]
        rw [hstep]
        exact ih (fun sn hsn => hx sn (List.mem_cons_of_mem x hsn)) _
  exact key _ hidx []

/-- A successful match has at least one hit and names a sheet present in
the index map. -/
lemma findMatch_some_inv (idxMap : List (String × StudentIndex)) (sid : String) :
    ∀ (locs : List Loc) (loc : Loc) (hits : List IndexRow),
      findMatch idxMap locs sid = some (loc, hits) →
      1 ≤ hits.length ∧ (alGet idxMap loc.sheet).isSome = true := by
  intro locs
  induction locs with
  | nil => intro loc hits h; cases h
  | cons l ls ih =>
      intro loc hits h
      unfold findMatch at h
      dsimp only at h
      by_cases h1 : (hitsFor idxMap l sid).length = 1
      · rw [if_pos h1] at h
        cases h
        constructor
        · omega
        · cases hg : alGet idxMap l.sheet with
          | none =>
              exfalso
              unfold hitsFor at h1
              rw [hg] at h1
              simp at h1
          | some idx => rfl
      · rw [if_neg h1] at h
        by_cases h2 : (hitsFor idxMap l sid).length > 1
        · rw [if_pos h2] at h
          cases h
          constructor
          · omega
          · cases hg : alGet idxMap l.sheet with
            | none =>
                exfalso
                unfold hitsFor at h2
                rw [hg] at h2
                simp at h2
            | some idx => rfl
        · rw [if_neg h2] at h
          exact ih loc hits h

/-- Reading a cell the applier wrote displays the stored value. -/
lemma getCellDisplay_of_record (wb : Workbook) (s : String) (a : Addr) (c : Cell)
    (h : cellRecordAt wb s a = some c) :
    getCellDisplay (wb.ws s) a = c.v.getD (.str "") := by
  unfold cellRecordAt at h
  cases hws : wb.ws s with
  | none => rw [hws] at h; cases h
  | some ws =>
      rw [hws] at h
      simp only [Option.some_bind] at h
      have h' : alGet ws.cells a = some c := h
      show (match alGet ws.cells a with
            | none => CellVal.str ""
            | some cell => cell.v.getD (CellVal.str "")) = c.v.getD (CellVal.str "")
      rw [h']

/-- The matched branch of the preview loop, spelled out. -/
lemma mkPreviewRow_matched (wb : Workbook) (idxMap : List (String × StudentIndex))
    (locs : List Loc) (task : String) (n : Nat) (item : String × Option String)
    (loc : Loc) (hits : List IndexRow)
    (hfm : findMatch idxMap locs (jsTrim item.1) = some (loc, hits)) :
    mkPreviewRow wb idxMap locs task n item =
      { index := n, input_id := jsTrim item.1, sheet := loc.sheet,
        row_index1 := some (hits.headD ⟨0, "", ""⟩).row1,
        student_id := jsTrim item.1,
        student_name := (hits.headD ⟨0, "", ""⟩).name,
        cell := some ⟨(hits.headD ⟨0, "", ""⟩).row1, loc.col1⟩,
        col_letter := encodeCol (loc.col1 - 1),
        old_value := getCellDisplay (wb.ws loc.sheet)
          ⟨(hits.headD ⟨0, "", ""⟩).row1, loc.col1⟩,
        new_value := if task = "attendance" then .num 1 else .str (item.2.getD "null"),
        match_status := if hits.length > 1 then "ambiguous" else "matched",
        note := if hits.length > 1 then
          "Duplicate ID detected in sheet; please verify match." else "" } := by
  unfold mkPreviewRow
  dsimp only
  rw [hfm]

/-- The no-hit branch of the preview loop. -/
lemma mkPreviewRow_none (wb : Workbook) (idxMap : List (String × StudentIndex))
    (locs : List Loc) (task : String) (n : Nat) (item : String × Option String)
    (hfm : findMatch idxMap locs (jsTrim item.1) = none) :
    mkPreviewRow wb idxMap locs task n item =
      mkNotFoundRow n (jsTrim item.1)
        (if task = "attendance" then .num 1 else .str (item.2.getD "null")) := by
  unfold mkPreviewRow
  dsimp only
  rw [hfm]

/-- Inversion of a successful preview run. -/
lemma preview_ok_inversion (wb : Workbook) (scope : Scope)
    (columnKey taskType : String) (ids : List String)
    (idsSet : Option (List String)) (grades : Option (List (String × String)))
    (out : EditorPreview)
    (h : computeEditorPreview wb scope columnKey taskType ids idsSet grades = .ok out) :
    ∃ opts sel, listColumnOptions wb scope = .ok opts ∧
      selectedOf opts columnKey = some sel ∧
      ¬(jsLower taskType ≠ "attendance" ∧ jsLower taskType ≠ "grade") ∧
      out = { preview_rows := (orderedInputOf (jsLower taskType) ids idsSet grades).enum.map
                (fun p => mkPreviewRow wb
                  (idxMapOf wb scope (targetIdsForDetection idsSet (jsLower taskType) grades))
                  sel.locations (jsLower taskType) (p.1 + 1) p.2),
              column_map := sel.locations.map (fun loc =>
                ColumnMapEntry.mk loc.sheet sel.headerText sel.kind loc.header_row
                  (encodeCol (loc.col1 - 1))),
              selected_column := sel } := by
  unfold computeEditorPreview at h
  cases hopts : listColumnOptions wb scope with
  | error e => rw [hopts] at h; cases h
  | ok opts =>
      rw [hopts] at h
      simp only at h
      cases hsel : selectedOf opts columnKey with
      | none => rw [hsel] at h; cases h
      | some sel =>
          rw [hsel] at h
          simp only at h
          split at h
          · cases h
          · rename_i htask
            cases h
            exact ⟨opts, sel, rfl, hsel, htask, rfl⟩

/-- Forward construction of a successful preview run. -/
lemma preview_ok_build (wb : Workbook) (scope : Scope)
    (columnKey taskType : String) (ids : List String)
    (idsSet : Option (List String)) (grades : Option (List (String × String)))
    (opts : List ColumnOption) (sel : ColumnOption)
    (hopts : listColumnOptions wb scope = .ok opts)
    (hsel : selectedOf opts columnKey = some sel)
    (htask : ¬(jsLower taskType ≠ "attendance" ∧ jsLower taskType ≠ "grade")) :
    computeEditorPreview wb scope columnKey taskType ids idsSet grades =
      .ok { preview_rows := (orderedInputOf (jsLower taskType) ids idsSet grades).enum.map
              (fun p => mkPreviewRow wb
                (idxMapOf wb scope (targetIdsForDetection idsSet (jsLower taskType) grades))
                sel.locations (jsLower taskType) (p.1 + 1) p.2),
            column_map := sel.locations.map (fun loc =>
              ColumnMapEntry.mk loc.sheet sel.headerText sel.kind loc.header_row
                (encodeCol (loc.col1 - 1))),
            selected_column := sel } := by
  unfold computeEditorPreview
  rw [hopts]
  dsimp only
  rw [hsel]
  dsimp only
  rw [if_neg htask]

/-- C7 as stated is false (see the counterexample: applying can destroy
the id cells the index is rebuilt from); it holds under invariance of
the catalog and of the per-sheet student indexes. For every workbook,
scope without an empty-named sheet, successful preview, user discard
choice and highlight settings: if re-running the catalog builder and
the per-scope-sheet index builder on the applied workbook gives the
same results, and kept rows have pairwise distinct target cells, then
the re-run preview succeeds and every row that was matched and not
discarded in the applied batch reports the same sheet and cell, is
still `matched`, and its oldValue is the newValue previously written. -/
theorem c7_round_trip_amended
    (wb : Workbook) (scope : Scope) (columnKey taskType : String)
    (orderedAttendanceIds : List String) (attendanceIdsSet : Option (List String))
    (gradesRows : Option (List (String × String)))
    (out : EditorPreview) (rows : List PreviewRow) (d : PreviewRow → Bool)
    (hl : Bool) (hc : String)
    (hok : computeEditorPreview wb scope columnKey taskType orderedAttendanceIds
      attendanceIdsSet gradesRows = .ok out)
    (hrows : rows = out.preview_rows.map (fun r => { r with discarded := d r }))
    (hscope : "" ∉ scopeSheetNames wb scope)
    (hcat : listColumnOptions (applyEditorBatch wb rows hl hc) scope =
      listColumnOptions wb scope)
    (hidx : ∀ sn ∈ scopeSheetNames wb scope,
      ((applyEditorBatch wb rows hl hc).ws sn).map
          (fun ws => buildStudentIndexForSheet ws
            (targetIdsForDetection attendanceIdsSet (jsLower taskType) gradesRows)) =
        (wb.ws sn).map
          (fun ws => buildStudentIndexForSheet ws
            (targetIdsForDetection attendanceIdsSet (jsLower taskType) gradesRows)))
    (hpw : List.Pairwise (fun r1 r2 => applierKept wb r1 = true →
      applierKept wb r2 = true → ¬(r1.sheet = r2.sheet ∧ r1.cell = r2.cell)) rows) :
    ∃ out',
      computeEditorPreview (applyEditorBatch wb rows hl hc) scope columnKey taskType
        orderedAttendanceIds attendanceIdsSet gradesRows = .ok out' ∧
      out'.preview_rows.length = rows.length ∧
      ∀ i r r', rows.get? i = some r → out'.preview_rows.get? i = some r' →
        r.match_status = "matched" → r.discarded = false →
        r'.match_status = "matched" ∧ r'.old_value = r.new_value ∧
        r'.sheet = r.sheet ∧ r'.cell = r.cell := by
  obtain ⟨opts, sel, hopts, hsel, htask, hout⟩ :=
    preview_ok_inversion wb scope columnKey taskType orderedAttendanceIds
      attendanceIdsSet gradesRows out hok
  have hnames : (applyEditorBatch wb rows hl hc).sheetNames = wb.sheetNames :=
    applyEdits_fold_sheetNames hl (rgbColorOf hl hc)
      (rows.filter (fun r => !r.discarded)) wb
  have hsn : scopeSheetNames (applyEditorBatch wb rows hl hc) scope =
      scopeSheetNames wb scope :=
    scopeSheetNames_congr _ _ scope hnames
  have hidxeq : idxMapOf (applyEditorBatch wb rows hl hc) scope
        (targetIdsForDetection attendanceIdsSet (jsLower taskType) gradesRows) =
      idxMapOf wb scope
        (targetIdsForDetection attendanceIdsSet (jsLower taskType) gradesRows) :=
    idxMapOf_congr _ _ scope _ hsn hidx
  refine ⟨_, preview_ok_build (applyEditorBatch wb rows hl hc) scope columnKey
    taskType orderedAttendanceIds attendanceIdsSet gradesRows opts sel
    (hcat.trans hopts) hsel htask, ?_, ?_⟩
  · rw [hrows, hout]
    simp
  · intro i r r' hri hr'i hm hd
    have hrmem : r ∈ rows := List.get?_mem hri
    rw [hrows, hout] at hri
    dsimp only at hri
    rw [List.get?_map, List.get?_map] at hri
    dsimp only at hr'i
    rw [List.get?_map] at hr'i
    cases he : (orderedInputOf (jsLower taskType) orderedAttendanceIds
        attendanceIdsSet gradesRows).enum.get? i with
    | none =>
        rw [he] at hri
        cases hri
    | some p =>
        rw [he] at hri
        rw [he] at hr'i
        simp only [Option.map_some'] at hri hr'i
        have hr_eq := (Option.some_inj.mp hri).symm
        have hr'_eq := (Option.some_inj.mp hr'i).symm
        rw [hidxeq] at hr'_eq
        cases hfm : findMatch
            (idxMapOf wb scope
              (targetIdsForDetection attendanceIdsSet (jsLower taskType) gradesRows))
            sel.locations (jsTrim p.2.1) with
        | none =>
            exfalso
            have hms0 : r.match_status = "notFound" := by
              rw [hr_eq, mkPreviewRow_none _ _ _ _ _ _ hfm]
              rfl
            rw [hms0] at hm
            exact absurd hm (by decide)
        | some q =>
            obtain ⟨loc, hits⟩ := q
            have hfp := mkPreviewRow_matched wb
              (idxMapOf wb scope
                (targetIdsForDetection attendanceIdsSet (jsLower taskType) gradesRows))
              sel.locations (jsLower taskType) (p.1 + 1) p.2 loc hits hfm
            have hfp' := mkPreviewRow_matched (applyEditorBatch wb rows hl hc)
              (idxMapOf wb scope
                (targetIdsForDetection attendanceIdsSet (jsLower taskType) gradesRows))
              sel.locations (jsLower taskType) (p.1 + 1) p.2 loc hits hfm
            have hms : r.match_status =
                (if hits.length > 1 then "ambiguous" else "matched") := by
              rw [hr_eq, hfp]
            have hnotamb : ¬ hits.length > 1 := by
              intro hgt
              rw [hms, if_pos hgt] at hm
              exact absurd hm (by decide)
            have hsheet : r.sheet = loc.sheet := by rw [hr_eq, hfp]
            have hcell : r.cell = some ⟨(hits.headD ⟨0, "", ""⟩).row1, loc.col1⟩ := by
              rw [hr_eq, hfp]
            obtain ⟨hlen, hsheetSome⟩ := findMatch_some_inv _ _ _ _ _ hfm
            obtain ⟨hinScope, hwsSome⟩ := idxMapOf_keys wb scope _ loc.sheet hsheetSome
            have hshne : loc.sheet ≠ "" := fun h0 => hscope (h0 ▸ hinScope)
            have hkept : applierKept wb r = true := by
              unfold applierKept
              simp only [Bool.and_eq_true, decide_eq_true_eq]
              refine ⟨⟨⟨?_, ?_⟩, ?_⟩, ?_⟩
              · rw [hm]
                decide
              · rw [hsheet]
                exact hshne
              · rw [hcell]
                rfl
              · rw [hsheet]
                exact hwsSome
            have hrfil : r ∈ rows.filter (fun r => !r.discarded) :=
              List.mem_filter.mpr ⟨hrmem, by rw [hd]; rfl⟩
            have hwrite := applyEdits_fold_write hl (rgbColorOf hl hc) wb
              (rows.filter (fun r => !r.discarded)) wb (fun s => rfl)
              (List.Pairwise.filter _ hpw) r hrfil hkept
              ⟨(hits.headD ⟨0, "", ""⟩).row1, loc.col1⟩ hcell
            have hdisp : getCellDisplay
                ((applyEditorBatch wb rows hl hc).ws r.sheet)
                ⟨(hits.headD ⟨0, "", ""⟩).row1, loc.col1⟩ = r.new_value :=
              getCellDisplay_of_record (applyEditorBatch wb rows hl hc) r.sheet
                ⟨(hits.headD ⟨0, "", ""⟩).row1, loc.col1⟩
                (writtenCell hl (rgbColorOf hl hc) r.new_value) hwrite
            rw [hsheet] at hdisp
            refine ⟨?_, ?_, ?_, ?_⟩
            · rw [hr'_eq, hfp']
              exact if_neg hnotamb
            · have hold : r'.old_value = getCellDisplay
                  ((applyEditorBatch wb rows hl hc).ws loc.sheet)
                  ⟨(hits.headD ⟨0, "", ""⟩).row1, loc.col1⟩ := by
                rw [hr'_eq, hfp']
              exact hold.trans hdisp
            · rw [hsheet, hr'_eq, hfp']
            · rw [hcell, hr'_eq, hfp']

/-- C7 as stated fails: selecting the identifier column itself
(`unknown::ID`) is a legitimate column selection, the preview matches
id 123456 at cell B2 (oldValue "123456", newValue 1), but applying
overwrites the very id cell the student index is rebuilt from, so
re-running the preview engine on the applied workbook reports the same
matched, non-discarded row as `notFound` (oldValue "") instead of
`matched` with oldValue 1. -/
theorem c7_counterexample :
    (computeEditorPreview c7wb c7scope "unknown::ID" "attendance" ["123456"]
        (some ["123456"]) none).toOption.map
      (fun o => o.preview_rows.map
        (fun r => (r.match_status, r.discarded, r.new_value, r.old_value))) =
      some [("matched", false, CellVal.num 1, CellVal.str "123456")] ∧
    (computeEditorPreview c7wb c7scope "unknown::ID" "attendance" ["123456"]
        (some ["123456"]) none).toOption.map
      (fun o =>
        (computeEditorPreview (applyEditorBatch c7wb o.preview_rows false "#FFFF00")
            c7scope "unknown::ID" "attendance" ["123456"] (some ["123456"])
            none).toOption.map
          (fun o2 => o2.preview_rows.map (fun r => (r.match_status, r.old_value)))) =
      some (some [("notFound", CellVal.str "")]) :=
  ⟨rfl, rfl⟩

/-- Witness for `c7_round_trip_amended`: on a concrete workbook whose
selected column (`unknown::W1`) is disjoint from the id column, the
catalog and index invariance hypotheses hold and the round trip keeps
the row matched with oldValue equal to the written newValue. -/
theorem c7_round_trip_amended_witness :
    ∃ out',
      computeEditorPreview (applyEditorBatch c7wwb c7wrows false "#FFFF00")
        c7scope "unknown::W1" "attendance" ["123456"] (some ["123456"]) none =
        .ok out' ∧
      out'.preview_rows.length = c7wrows.length ∧
      ∀ i r r', c7wrows.get? i = some r → out'.preview_rows.get? i = some r' →
        r.match_status = "matched" → r.discarded = false →
        r'.match_status = "matched" ∧ r'.old_value = r.new_value ∧
        r'.sheet = r.sheet ∧ r'.cell = r.cell :=
  c7_round_trip_amended c7wwb c7scope "unknown::W1" "attendance" ["123456"]
    (some ["123456"]) none c7wout c7wrows (fun _ => false) false "#FFFF00"
    rfl rfl (by decide) rfl (by decide) (by decide)

end Yaqeen
